import Mathlib

/-!
Shallow embedding of the `CarbonTracker` Solidity contract
(`src/app/methane/client/src/services/contract-functions.ts`, embedded contract
source) together with theorems settling the specification claims about it.

Addresses and uint256 values are modelled as `Nat`; the zero address is `0`.
Checked (SafeMath / Solidity 0.8) arithmetic is modelled by `safeAdd`/`safeSub`
returning `Except Err Nat`.  Every state-mutating entry point is a function
`... → State → Except Err State`: an `Except.error` models a revert, so a failed
call leaves no state change by construction.
-/

namespace CarbonTracker

/-- Addresses are naturals; `0` plays the role of `address(0)`. -/
abbrev Address := Nat

/-- 2 ^ 256, the bound of uint256 arithmetic (written as a literal). -/
def UINT_MAX : Nat := 115792089237316195423570985008687907853269984665640564039457584007913129639936

/-- Revert reasons of the contract (the distinct `require` messages and
arithmetic panics that the modelled code can raise). -/
inductive Err where
  | AlreadyAudited
  | NotAuditor
  | NotAudited
  | NotAuditorOrOwner
  | TrackerDoesNotExist
  | NotIndustry
  | LengthMismatch
  | InsufficientAvailable
  | Underflow
  | Overflow
  | OutOfBounds
  | SelfReferenceNotAllowed
  | InsufficientProductBalance
  | ProductNotOwnedByTracker
  | NotProductAuditor
  | NonexistentToken
  | MintError
  deriving DecidableEq

/-- Checked uint256 addition (`SafeMath.add` / Solidity 0.8 checked `+`). -/
def safeAdd (a b : Nat) : Except Err Nat :=
  if a + b < UINT_MAX then .ok (a + b) else .error .Overflow

/-- Checked uint256 subtraction (`SafeMath.sub` / Solidity 0.8 checked `-`). -/
def safeSub (a b : Nat) : Except Err Nat :=
  if b ≤ a then .ok (a - b) else .error .Underflow

/-- Pointwise update of a `Nat`-indexed mapping. -/
def upd {α : Type} (f : Nat → α) (k : Nat) (v : α) : Nat → α :=
  fun x => if x = k then v else f x

/-- Pointwise update of a doubly indexed mapping. -/
def upd2 {α : Type} (f : Nat → Nat → α) (k1 k2 : Nat) (v : α) : Nat → Nat → α :=
  fun x y => if x = k1 ∧ y = k2 then v else f x y

/-- `require(p, e)`: succeed on `p`, revert with `e` otherwise. -/
def reqP (p : Prop) [Decidable p] (e : Err) : Except Err Unit :=
  if p then .ok () else .error e

/-- Explicit bind for `Except Err`, used to keep proof obligations syntactic. -/
def bindE {α β : Type} (x : Except Err α) (f : α → Except Err β) : Except Err β :=
  match x with
  | .error e => .error e
  | .ok a => f a

/-- The external `NetEmissionsTokenNetwork` collaborator, fixed per scenario:
`isAuditor`, `isIndustry`, `getAvailableAndRetired` (only the available part is
used by the modelled code) and `getTokenTypeId`. -/
structure Env where
  isAuditor : Address → Bool
  isIndustry : Address → Bool
  availAmount : Nat → Nat
  tokenTypeId : Nat → Nat

/-- `CarbonTrackerDetails`. -/
structure TrackerDetails where
  trackerId : Nat
  trackee : Address
  auditor : Address
  totalProductAmounts : Nat
  fromDate : Nat
  thruDate : Nat
  createdBy : Address
  dateCreated : Nat
  dateUpdated : Nat
  metadata : String
  description : String

def TrackerDetails.empty : TrackerDetails :=
  { trackerId := 0, trackee := 0, auditor := 0, totalProductAmounts := 0,
    fromDate := 0, thruDate := 0, createdBy := 0, dateCreated := 0,
    dateUpdated := 0, metadata := "", description := "" }

/-- `ProductsTracked`: the per-source-tracker record of tracked products,
an array of product ids with a 1-based index mapping and an amount mapping. -/
structure ProductsTracked where
  productIds : List Nat
  productIndex : Nat → Nat
  amount : Nat → Nat

def ProductsTracked.empty : ProductsTracked :=
  { productIds := [], productIndex := fun _ => 0, amount := fun _ => 0 }

/-- `CarbonTrackerMappings`. -/
structure TrackerMappings where
  tokenIds : List Nat
  idIndex : Nat → Nat
  amount : Nat → Nat
  productIds : List Nat
  productIdIndex : Nat → Nat
  trackerIds : List Nat
  trackerIndex : Nat → Nat
  productsTracked : Nat → ProductsTracked

def TrackerMappings.empty : TrackerMappings :=
  { tokenIds := [], idIndex := fun _ => 0, amount := fun _ => 0,
    productIds := [], productIdIndex := fun _ => 0,
    trackerIds := [], trackerIndex := fun _ => 0,
    productsTracked := fun _ => ProductsTracked.empty }

/-- `ProductDetails`. -/
structure ProductDetails where
  trackerId : Nat
  auditor : Address
  amount : Nat
  available : Nat
  name : String
  unit : String
  unitAmount : String

def ProductDetails.empty : ProductDetails :=
  { trackerId := 0, auditor := 0, amount := 0, available := 0,
    name := "", unit := "", unitAmount := "" }

/-- The contract storage.  `owner` is the ERC-721 ownership mapping of tracker
tokens (`none` = not minted, so `ownerOf` reverts). -/
structure State where
  trackerData : Nat → TrackerDetails
  trackerMappings : Nat → TrackerMappings
  productData : Nat → ProductDetails
  numTrackers : Nat
  numProducts : Nat
  lockedAmount : Nat → Nat
  productBalance : Nat → Address → Nat
  isAuditorApproved : Address → Address → Bool
  approvedAuditorsOnly : Address → Bool
  owner : Nat → Option Address
  netAddress : Address

/-- The genesis storage for a given network contract address. -/
def State.init (netAddr : Address) : State :=
  { trackerData := fun _ => TrackerDetails.empty,
    trackerMappings := fun _ => TrackerMappings.empty,
    productData := fun _ => ProductDetails.empty,
    numTrackers := 0, numProducts := 0,
    lockedAmount := fun _ => 0,
    productBalance := fun _ _ => 0,
    isAuditorApproved := fun _ _ => false,
    approvedAuditorsOnly := fun _ => false,
    owner := fun _ => none,
    netAddress := netAddr }

def State.setTracker (s : State) (id : Nat) (f : TrackerDetails → TrackerDetails) : State :=
  { s with trackerData := upd s.trackerData id (f (s.trackerData id)) }

def State.setMappings (s : State) (id : Nat) (f : TrackerMappings → TrackerMappings) : State :=
  { s with trackerMappings := upd s.trackerMappings id (f (s.trackerMappings id)) }

def State.setProduct (s : State) (id : Nat) (f : ProductDetails → ProductDetails) : State :=
  { s with productData := upd s.productData id (f (s.productData id)) }

/-- `__isAuditor(_trackee)`: the caller is a network auditor (or the network
contract itself) and, when the trackee opted into restricted approval, is
explicitly approved for that trackee. -/
def isAuditorFor (env : Env) (s : State) (sender trackee : Address) : Bool :=
  (env.isAuditor sender || sender == s.netAddress) &&
    ((s.approvedAuditorsOnly trackee && s.isAuditorApproved sender trackee) ||
      !s.approvedAuditorsOnly trackee)

/-- `ERC721.ownerOf`: reverts on a token that was never minted. -/
def ownerOf (s : State) (id : Nat) : Except Err Address :=
  match s.owner id with
  | some a => .ok a
  | none => .error .NonexistentToken

/-- `_addTokenAmounts`: type 4 adds to, type 2 subtracts from, the tracker's
per-token amount (any other type leaves it untouched); if the resulting amount
is nonzero and the token is unindexed, append it to the tracker's token array. -/
def addTokenAmounts (tm : TrackerMappings) (tokenId amountAdd index tokenTypeId : Nat) :
    Except Err TrackerMappings :=
  bindE
    (if tokenTypeId = 4 then
      bindE (safeAdd (tm.amount tokenId) amountAdd) fun a =>
        .ok { tm with amount := upd tm.amount tokenId a }
    else if tokenTypeId = 2 then
      bindE (safeSub (tm.amount tokenId) amountAdd) fun a =>
        .ok { tm with amount := upd tm.amount tokenId a }
    else .ok tm) fun tm =>
  if 0 < tm.amount tokenId then
    if index = 0 then
      .ok { tm with tokenIds := tm.tokenIds ++ [tokenId],
                    idIndex := upd tm.idIndex tokenId (tm.tokenIds.length + 1) }
    else .ok tm
  else .ok tm

/-- The per-pair loop of `_trackTokens`: check availability against the global
locked amount, lock the submitted amount, then update the tracker's token data. -/
def trackTokensLoop (env : Env) (sender : Address) (trackerId : Nat) :
    List (Nat × Nat) → State → Except Err State
  | [], s => .ok s
  | (tokenId, amt) :: rest, s =>
    bindE
      (if sender = s.netAddress then .ok ()
       else bindE (safeSub (env.availAmount tokenId) (s.lockedAmount tokenId)) fun d =>
         reqP (amt ≤ d) .InsufficientAvailable) fun _ =>
    bindE (safeAdd (s.lockedAmount tokenId) amt) fun l =>
    bindE (addTokenAmounts (s.trackerMappings trackerId) tokenId amt
        ((s.trackerMappings trackerId).idIndex tokenId) (env.tokenTypeId tokenId)) fun tm =>
    trackTokensLoop env sender trackerId rest
      { s with
        lockedAmount := upd s.lockedAmount tokenId l
        trackerMappings := upd s.trackerMappings trackerId tm }

/-- `_trackTokens`: requires the trackee to be a registered industry and the
caller an authorized auditor of the trackee, then processes the token pairs. -/
def trackTokens (env : Env) (sender : Address) (trackerId : Nat)
    (tokenIds tokenAmounts : List Nat) (s : State) : Except Err State :=
  bindE (reqP (env.isIndustry (s.trackerData trackerId).trackee = true) .NotIndustry) fun _ =>
  bindE (reqP (isAuditorFor env s sender (s.trackerData trackerId).trackee = true)
    .NotAuditor) fun _ =>
  bindE (reqP (tokenAmounts.length = tokenIds.length) .LengthMismatch) fun _ =>
  trackTokensLoop env sender trackerId (tokenIds.zip tokenAmounts) s

/-- The optional date/description/metadata block shared by `track` and
`trackUpdate`: each field is written only when the argument is nonzero
(nonempty). -/
def setDates (fromDate thruDate : Nat) (description metadata : String)
    (trackerId : Nat) (s : State) : State :=
  let s2 := if 0 < fromDate then s.setTracker trackerId (fun d => { d with fromDate := fromDate }) else s
  let s3 := if 0 < thruDate then s2.setTracker trackerId (fun d => { d with thruDate := thruDate }) else s2
  let s4 := if 0 < description.length then s3.setTracker trackerId (fun d => { d with description := description }) else s3
  if 0 < metadata.length then s4.setTracker trackerId (fun d => { d with metadata := metadata }) else s4

/-- The state writes of `_track` (fresh tracker record) and `_mint` (ownership
of the new token), combined; the mint `require`s are checked by `track` before
any write becomes visible, which is observationally the revert semantics of
the source. -/
def mintState (now : Nat) (sender issuedTo trackee : Address) (s : State) : State :=
  let trackerId := s.numTrackers + 1
  { s with
    numTrackers := trackerId
    trackerData := upd s.trackerData trackerId
      { TrackerDetails.empty with
        trackerId := trackerId
        createdBy := sender
        trackee := trackee
        dateCreated := now }
    owner := fun t => if t = trackerId then some issuedTo else s.owner t }

/-- `track`: mint a fresh tracker (`_track` + `_mint`), record the optional
dates/description/metadata, and seed tokens only when `tokenIds` is nonempty. -/
def track (env : Env) (now : Nat) (sender issuedTo trackee : Address)
    (tokenIds tokenAmounts : List Nat) (fromDate thruDate : Nat)
    (description metadata : String) (s : State) : Except Err State :=
  bindE (reqP (issuedTo ≠ 0) .MintError) fun _ =>
  bindE (reqP (s.owner (s.numTrackers + 1) = none) .MintError) fun _ =>
  if 0 < tokenIds.length then
    trackTokens env sender (s.numTrackers + 1) tokenIds tokenAmounts
      (setDates fromDate thruDate description metadata (s.numTrackers + 1)
        (mintState now sender issuedTo trackee s))
  else
    .ok (setDates fromDate thruDate description metadata (s.numTrackers + 1)
      (mintState now sender issuedTo trackee s))

/-- `trackUpdate`: requires Unaudited and existence, refreshes the date fields,
and unconditionally delegates to `_trackTokens`. -/
def trackUpdate (env : Env) (now : Nat) (sender : Address) (trackerId : Nat)
    (tokenIds tokenAmounts : List Nat) (fromDate thruDate : Nat)
    (description metadata : String) (s : State) : Except Err State :=
  bindE (reqP ((s.trackerData trackerId).auditor = 0) .AlreadyAudited) fun _ =>
  bindE (reqP (trackerId ≤ s.numTrackers) .TrackerDoesNotExist) fun _ =>
  trackTokens env sender trackerId tokenIds tokenAmounts
    (setDates fromDate thruDate description metadata trackerId
      (s.setTracker trackerId (fun d => { d with dateUpdated := now })))

/-- Five-way zip of the parallel `productsUpdate` argument arrays. -/
def zip5 : List Nat → List Nat → List String → List String → List String →
    List (Nat × Nat × String × String × String)
  | a :: as, b :: bs, c :: cs, d :: ds, e :: es => (a, b, c, d, e) :: zip5 as bs cs ds es
  | _, _, _, _, _ => []

/-- The per-entry loop of `productsUpdate`.  Each tuple is
`(productId, amount, name, unit, unitAmount)`.  Note the source subtracts
`productAmounts[i]` (the incoming amount) from `totalProductAmounts` in the
update branch.  The branch result is `(productId, running total, state)`; the
running total is threaded explicitly (instead of through an intermediate
storage write that nothing reads back before the final write), and all state
writes of one iteration are combined in the recursive call. -/
def productsUpdateLoop (sender : Address) (trackerId : Nat) :
    List (Nat × Nat × String × String × String) → State → Except Err State
  | [], s => .ok s
  | (pid0, amt, pname, punit, punitAmount) :: rest, s =>
    bindE
      (if 0 < pid0 then
        bindE (reqP ((s.productData pid0).trackerId = trackerId) .ProductNotOwnedByTracker) fun _ =>
        bindE (safeSub (s.trackerData trackerId).totalProductAmounts amt) fun t1 =>
        bindE (reqP ((s.productData pid0).auditor = sender) .NotProductAuditor) fun _ =>
        .ok (pid0, t1, s)
      else
        .ok (s.numProducts + 1, (s.trackerData trackerId).totalProductAmounts,
          { s with
            numProducts := s.numProducts + 1
            productData := upd s.productData (s.numProducts + 1)
              { s.productData (s.numProducts + 1) with trackerId := trackerId, auditor := sender }
            trackerMappings := upd s.trackerMappings trackerId
              { s.trackerMappings trackerId with
                productIds := (s.trackerMappings trackerId).productIds ++ [s.numProducts + 1] } }))
      fun r =>
    bindE (safeAdd r.2.1 amt) fun t2 =>
    productsUpdateLoop sender trackerId rest
      { r.2.2 with
        productData := upd r.2.2.productData r.1
          { r.2.2.productData r.1 with
            name := pname, unitAmount := punitAmount, unit := punit, amount := amt, available := amt }
        trackerData := upd r.2.2.trackerData trackerId
          { r.2.2.trackerData trackerId with totalProductAmounts := t2 } }

/-- `productsUpdate`: Unaudited + existence + auditor, the four length checks,
then the per-entry loop. -/
def productsUpdate (env : Env) (sender : Address) (trackerId : Nat)
    (productIds productAmounts : List Nat)
    (productNames productUnits productUnitAmounts : List String)
    (s : State) : Except Err State :=
  bindE (reqP ((s.trackerData trackerId).auditor = 0) .AlreadyAudited) fun _ =>
  bindE (reqP (trackerId ≤ s.numTrackers) .TrackerDoesNotExist) fun _ =>
  bindE (reqP (isAuditorFor env s sender (s.trackerData trackerId).trackee = true)
    .NotAuditor) fun _ =>
  bindE (reqP (productAmounts.length = productIds.length) .LengthMismatch) fun _ =>
  bindE (reqP (productNames.length = productIds.length) .LengthMismatch) fun _ =>
  bindE (reqP (productUnitAmounts.length = productIds.length) .LengthMismatch) fun _ =>
  bindE (reqP (productUnits.length = productIds.length) .LengthMismatch) fun _ =>
  productsUpdateLoop sender trackerId
    (zip5 productIds productAmounts productNames productUnits productUnitAmounts) s

/-- `transferProduct`: the tracker owner draws from `product.available` (and the
tracker must then be Audited); any residual is drawn from the caller's product
balance; the destination's balance is credited with the full amount. -/
def transferProduct (sender : Address) (productId productAmount : Nat)
    (trackee : Address) (s : State) : Except Err State :=
  bindE (ownerOf s (s.productData productId).trackerId) fun o =>
  bindE
    (if sender = o then
      bindE (reqP ((s.trackerData (s.productData productId).trackerId).auditor ≠ 0)
        .NotAudited) fun _ =>
      .ok (s.productData productId).available
    else .ok 0) fun available =>
  bindE (safeAdd (s.productBalance productId sender) available) fun total =>
  bindE (reqP (productAmount < total) .InsufficientProductBalance) fun _ =>
  bindE
    (if 0 < available then
      if available < productAmount then
        .ok (productAmount - available,
          s.setProduct productId (fun p => { p with available := 0 }))
      else
        bindE (safeSub (s.productData productId).available productAmount) fun a =>
        .ok (0, s.setProduct productId (fun p => { p with available := a }))
    else .ok (productAmount, s)) fun r =>
  bindE
    (if 0 < r.1 then
      bindE (safeSub (r.2.productBalance productId sender) r.1) fun b =>
      .ok { r.2 with productBalance := upd2 r.2.productBalance productId sender b }
    else .ok r.2) fun s2 =>
  bindE (safeAdd (s2.productBalance productId trackee) productAmount) fun b =>
  .ok { s2 with productBalance := upd2 s2.productBalance productId trackee b }

/-- Solidity swap-remove of `key` (stored 1-based index `idx`) from an indexed
array.  Mirrors the source exactly: when the array has more than one element
the last element is copied over the removed slot and re-indexed; the index
entry of `key` is deleted; then `delete arr[arr.length-1]` ZEROES the last slot
without shrinking the array (Solidity `delete` on an array element). -/
def dropFromIndexedArray (ids : List Nat) (index : Nat → Nat) (key idx : Nat) :
    Except Err (List Nat × (Nat → Nat)) :=
  bindE
    (if 1 < ids.length then
      bindE (reqP (0 < idx ∧ idx - 1 < ids.length) .OutOfBounds) fun _ =>
      let last := ids.getLastD 0
      .ok (ids.set (idx - 1) last, upd index last idx)
    else .ok (ids, index)) fun r =>
  let ids := r.1
  let index := upd r.2 key 0
  bindE (reqP (0 < ids.length) .Underflow) fun _ =>
  .ok (ids.set (ids.length - 1) 0, index)

/-- `_updateTrackedProducts` on the mappings record of the target tracker:
add `productAmount` to the tracked amount of `(sourceTrackerId, productId)`,
maintain the two-level indexed sets, and tear down empty records.  Solidity
`delete` of the `ProductsTracked` struct resets its `productIds` array but
leaves the `productIndex`/`amount` mappings untouched, which is mirrored here. -/
def updateTrackedProducts (sourceTrackerId productId productAmount : Nat)
    (tm : TrackerMappings) : Except Err TrackerMappings :=
  let pt := tm.productsTracked sourceTrackerId
  bindE (safeAdd (pt.amount productId) productAmount) fun a =>
  let pt : ProductsTracked := { pt with amount := upd pt.amount productId a }
  let trackerIndex := tm.trackerIndex sourceTrackerId
  let productIndex := pt.productIndex productId
  bindE
    (if 0 < a then
      if productIndex = 0 then
        .ok { pt with productIds := pt.productIds ++ [productId],
                      productIndex := upd pt.productIndex productId (pt.productIds.length + 1) }
      else .ok pt
    else
      bindE
        (if 0 < productIndex then
          bindE (dropFromIndexedArray pt.productIds pt.productIndex productId productIndex) fun r =>
          .ok { pt with productIds := r.1, productIndex := r.2 }
        else .ok pt) fun pt =>
      .ok { pt with amount := upd pt.amount productId 0 }) fun pt =>
  let tm : TrackerMappings := { tm with productsTracked := upd tm.productsTracked sourceTrackerId pt }
  if 0 < pt.productIds.length then
    if trackerIndex = 0 then
      .ok { tm with trackerIds := tm.trackerIds ++ [sourceTrackerId],
                    trackerIndex := upd tm.trackerIndex sourceTrackerId (tm.trackerIds.length + 1) }
    else .ok tm
  else
    bindE
      (if 0 < trackerIndex then
        bindE (dropFromIndexedArray tm.trackerIds tm.trackerIndex sourceTrackerId trackerIndex) fun r =>
        .ok { tm with trackerIds := r.1, trackerIndex := r.2 }
      else .ok tm) fun tm =>
    .ok { tm with
          productsTracked :=
            upd tm.productsTracked sourceTrackerId { pt with productIds := [] } }

/-- State-level wrapper of `_updateTrackedProducts`. -/
def updateTrackedProductsS (trackerId sourceTrackerId productId productAmount : Nat)
    (s : State) : Except Err State :=
  bindE (updateTrackedProducts sourceTrackerId productId productAmount
    (s.trackerMappings trackerId)) fun tm =>
  .ok { s with trackerMappings := upd s.trackerMappings trackerId tm }

/-- `trackProduct`: Unaudited, existing tracker, auditor-or-owner (note the
source passes `msg.sender` to `__isAuditor`, whose parameter is the trackee
position), no self-reference, and a strictly greater caller balance; then the
balance is debited and the lineage record updated. -/
def trackProduct (env : Env) (sender : Address)
    (trackerId sourceTrackerId productId productAmount : Nat)
    (s : State) : Except Err State :=
  bindE (reqP ((s.trackerData trackerId).auditor = 0) .AlreadyAudited) fun _ =>
  bindE (reqP (trackerId ≤ s.numTrackers) .TrackerDoesNotExist) fun _ =>
  bindE
    (if isAuditorFor env s sender sender = true then .ok ()
     else bindE (ownerOf s trackerId) fun o =>
       reqP (o = sender) .NotAuditorOrOwner) fun _ =>
  bindE (reqP (trackerId ≠ (s.productData productId).trackerId) .SelfReferenceNotAllowed) fun _ =>
  bindE (reqP (productAmount < s.productBalance productId sender)
    .InsufficientProductBalance) fun _ =>
  bindE (safeSub (s.productBalance productId sender) productAmount) fun b =>
  let s : State := { s with productBalance := upd2 s.productBalance productId sender b }
  updateTrackedProductsS trackerId sourceTrackerId productId productAmount s

/-- `audit`: requires Unaudited and an authorized auditor of the trackee;
records the caller as the tracker's auditor. -/
def audit (env : Env) (sender : Address) (trackerId : Nat) (s : State) : Except Err State :=
  bindE (reqP ((s.trackerData trackerId).auditor = 0) .AlreadyAudited) fun _ =>
  bindE (reqP (isAuditorFor env s sender (s.trackerData trackerId).trackee = true)
    .NotAuditor) fun _ =>
  .ok (s.setTracker trackerId (fun d => { d with auditor := sender }))

/-- `removeAudit`: an authorized auditor of the trackee clears the audit flag. -/
def removeAudit (env : Env) (sender : Address) (trackerId : Nat) (s : State) : Except Err State :=
  bindE (reqP (isAuditorFor env s sender (s.trackerData trackerId).trackee = true)
    .NotAuditor) fun _ =>
  .ok (s.setTracker trackerId (fun d => { d with auditor := 0 }))

/-- Sum of the per-token amounts over the tracker's token array (the direct part
of `_getTotalEmissions`). -/
def sumTokenAmounts (tm : TrackerMappings) : Nat :=
  tm.tokenIds.foldl (fun acc t => acc + tm.amount t) 0

/-- The lineage double loop of `_getTotalEmissions`, parametrized by the
emissions factor of the source trackers; the accumulator starts at the direct
emissions. -/
def lineageEmissions (tm : TrackerMappings) (ef : Nat → Nat) (direct : Nat) : Nat :=
  tm.trackerIds.foldl (fun acc src =>
    let pt := tm.productsTracked src
    pt.productIds.foldl (fun acc2 p => acc2 + pt.amount p * ef src / 1000000) acc) direct

/-- `getTotalEmissions`, with an explicit recursion-depth fuel: the source
recursion (`getTotalEmissions` → `emissionsFactor` of every lineage source
tracker) has no cycle guard, so the embedding bounds the depth; a lineage
contribution beyond the fuel counts as 0. -/
def getTotalEmissionsF (env : Env) (s : State) : Nat → Nat → Nat
  | 0, trackerId =>
    lineageEmissions (s.trackerMappings trackerId) (fun _ => 0)
      (sumTokenAmounts (s.trackerMappings trackerId))
  | fuel + 1, trackerId =>
    lineageEmissions (s.trackerMappings trackerId)
      (fun src =>
        if 0 < (s.trackerData src).totalProductAmounts then
          getTotalEmissionsF env s fuel src * 1000000 / (s.trackerData src).totalProductAmounts
        else 0)
      (sumTokenAmounts (s.trackerMappings trackerId))

/-- `emissionsFactor`: total emissions scaled by `decimalsEf = 1_000_000` and
divided by `totalProductAmounts`, or 0 when the latter is 0. -/
def emissionsFactorF (env : Env) (s : State) (fuel trackerId : Nat) : Nat :=
  if 0 < (s.trackerData trackerId).totalProductAmounts then
    getTotalEmissionsF env s fuel trackerId * 1000000 /
      (s.trackerData trackerId).totalProductAmounts
  else 0

/-- Extract the success state of a run (default for the error case); used only
to name concrete scenario states in witnesses. -/
def okD (x : Except Err State) (d : State) : State :=
  match x with
  | .ok s => s
  | .error _ => d

/-! ### Concrete scenarios used by counterexamples and witnesses -/

/-- Concrete external environment: address 10 is a network auditor, address 9
a registered industry account, token 1 has type 4 (emissions-like), token 2
type 2 (offset-like), and the contract holds 1000 available units of every
token. -/
def envW : Env :=
  { isAuditor := fun a => a == 10
    isIndustry := fun a => a == 9
    availAmount := fun _ => 1000
    tokenTypeId := fun t => if t == 1 then 4 else if t == 2 then 2 else 1 }

/-- C1 scenario: auditor 10 mints tracker 1 for industry trackee 9 (owner 7),
creates product 1 with amount 50 via `productsUpdate`, then updates the same
product to amount 30. -/
def c1Run : Except Err State :=
  bindE (track envW 0 10 7 9 [] [] 0 0 "" "" (State.init 1)) fun s1 =>
  bindE (productsUpdate envW 10 1 [0] [50] [""] [""] [""] s1) fun s2 =>
  productsUpdate envW 10 1 [1] [30] [""] [""] [""] s2

/-- C4 scenario, as in the claim: fresh tracker 1, then `trackUpdate` with
tokens `[(1, 100), (2, 30)]` where token 1 has type 4 and token 2 type 2. -/
def c4Run : Except Err State :=
  bindE (track envW 0 10 7 9 [] [] 0 0 "" "" (State.init 1)) fun s1 =>
  trackUpdate envW 0 10 1 [1, 2] [100, 30] 0 0 "" "" s1

/-- C4 auxiliary run: only the type-4 token is tracked, and the total
emissions of tracker 1 are computed. -/
def c4RunDirect : Except Err Nat :=
  bindE (track envW 0 10 7 9 [] [] 0 0 "" "" (State.init 1)) fun s1 =>
  bindE (trackUpdate envW 0 10 1 [1] [100] 0 0 "" "" s1) fun s2 =>
  .ok (getTotalEmissionsF envW s2 5 1)

/-- C8 scenario: `track` called with empty `tokenIds` but a nonempty
`tokenAmounts` array. -/
def c8Run : Except Err State :=
  track envW 0 10 7 9 [] [5] 0 0 "" "" (State.init 1)

/-- C9 witness state: tracker 1 with 100 units of direct type-4 emissions and
no products (`totalProductAmounts = 0`). -/
def c9State : State :=
  okD (bindE (track envW 0 10 7 9 [] [] 0 0 "" "" (State.init 1)) fun s1 =>
    trackUpdate envW 0 10 1 [1] [100] 0 0 "" "" s1) (State.init 0)

/-- C10 witness state: tracker 1 exists, unaudited, with trackee 8 — an
address that is NOT a registered industry. -/
def c10State : State :=
  okD (track envW 0 10 7 8 [] [] 0 0 "" "" (State.init 1)) (State.init 0)

/-- Witness state shared by several claims: tracker 1 (trackee 9, owner 7)
with product 1 of amount 100, audited by auditor 10. -/
def auditedState : State :=
  okD (bindE (track envW 0 10 7 9 [] [] 0 0 "" "" (State.init 1)) fun s1 =>
    bindE (productsUpdate envW 10 1 [0] [100] [""] [""] [""] s1) fun s2 =>
    audit envW 10 1 s2) (State.init 0)

/-- Witness state: like `auditedState`, but additionally owner 7 transferred
40 units of product 1 to address 20, and address 20 minted tracker 2
(trackee 9, owner 20), still unaudited. -/
def transferState : State :=
  okD (bindE (track envW 0 10 7 9 [] [] 0 0 "" "" (State.init 1)) fun s1 =>
    bindE (productsUpdate envW 10 1 [0] [100] [""] [""] [""] s1) fun s2 =>
    bindE (audit envW 10 1 s2) fun s3 =>
    bindE (transferProduct 7 1 40 20 s3) fun s4 =>
    track envW 0 20 20 9 [] [] 0 0 "" "" s4) (State.init 0)

/-- C2 witness state: tracker 1 audited, then the audit removed by auditor 10. -/
def rmState : State :=
  okD (removeAudit envW 10 1 auditedState) (State.init 0)

/-- C2 witness state: like `transferState`, with tracker 2 audited by 10. -/
def c2State : State :=
  okD (audit envW 10 2 transferState) (State.init 0)

/-- C2 witness state: `c2State` after the audit of tracker 2 is removed. -/
def c2Rm : State :=
  okD (removeAudit envW 10 2 c2State) (State.init 0)

/-- C6 counterexample state: tracker 1 (trackee 9, owner 7) with product 1 of
amount 100, NOT audited. -/
def c6State : State :=
  okD (bindE (track envW 0 10 7 9 [] [] 0 0 "" "" (State.init 1)) fun s1 =>
    productsUpdate envW 10 1 [0] [100] [""] [""] [""] s1) (State.init 0)

/-- C3 pre-call state: a fresh tracker 1 (trackee 9, owner 7), nothing locked. -/
def c3PreState : State :=
  okD (track envW 0 10 7 9 [] [] 0 0 "" "" (State.init 1)) (State.init 0)

/-- C3 counterexample run: `trackUpdate` submitting the SAME token id twice,
pairs `[(1,1), (1,1)]`. -/
def c3DupRun : Except Err State :=
  trackUpdate envW 0 10 1 [1, 1] [1, 1] 0 0 "" "" c3PreState

/-- C5 witness mappings: the empty lineage record after one successful
`_updateTrackedProducts` call adding 5 units of product 1 from source
tracker 2. -/
def c5Tm : TrackerMappings :=
  match updateTrackedProducts 2 1 5 TrackerMappings.empty with
  | .ok t => t
  | .error _ => TrackerMappings.empty

/-! ### Predicates used to state loop preconditions -/

/-- Total amount submitted for token `t` across the pairs of a call. -/
def submittedAmount (t : Nat) : List (Nat × Nat) → Nat
  | [] => 0
  | (tid, a) :: rest => (if tid = t then a else 0) + submittedAmount t rest

/-- The per-token amount map after one `_addTokenAmounts` step. -/
def updTokAmt (env : Env) (tokAmt : Nat → Nat) (t a : Nat) : Nat → Nat :=
  if env.tokenTypeId t = 4 then upd tokAmt t (tokAmt t + a)
  else if env.tokenTypeId t = 2 then upd tokAmt t (tokAmt t - a)
  else tokAmt

/-- Precondition under which the `_trackTokens` loop runs to completion:
availability check, no lock-counter overflow, and no per-token amount
overflow/underflow, threaded through the lock/amount updates of each step. -/
def tokensPre (env : Env) (sender netAddr : Address) :
    List (Nat × Nat) → (Nat → Nat) → (Nat → Nat) → Prop
  | [], _, _ => True
  | (t, a) :: rest, locked, tokAmt =>
    (sender = netAddr ∨ (locked t ≤ env.availAmount t ∧ a ≤ env.availAmount t - locked t)) ∧
    locked t + a < UINT_MAX ∧
    (env.tokenTypeId t = 4 → tokAmt t + a < UINT_MAX) ∧
    (env.tokenTypeId t = 2 → a ≤ tokAmt t) ∧
    tokensPre env sender netAddr rest (upd locked t (locked t + a)) (updTokAmt env tokAmt t a)

/-- The product-details map after the common write block of one
`productsUpdate` loop iteration. -/
def updProdData (pd : Nat → ProductDetails) (pid amt : Nat) (n u ua : String) :
    Nat → ProductDetails :=
  upd pd pid { pd pid with name := n, unitAmount := ua, unit := u, amount := amt, available := amt }

/-- Precondition under which the `productsUpdate` loop runs to completion,
threaded through the product-data / total / product-counter updates. -/
def productsPre (sender : Address) (trackerId : Nat) :
    List (Nat × Nat × String × String × String) → (Nat → ProductDetails) → Nat → Nat → Prop
  | [], _, _, _ => True
  | (pid, amt, n, u, ua) :: rest, pd, total, numProd =>
    if 0 < pid then
      (pd pid).trackerId = trackerId ∧ amt ≤ total ∧ (pd pid).auditor = sender ∧
      total < UINT_MAX ∧
      productsPre sender trackerId rest (updProdData pd pid amt n u ua) total numProd
    else
      total + amt < UINT_MAX ∧
      productsPre sender trackerId rest
        (updProdData (upd pd (numProd + 1)
          { pd (numProd + 1) with trackerId := trackerId, auditor := sender })
          (numProd + 1) amt n u ua)
        (total + amt) (numProd + 1)

/-! ### Reachability and invariants of the lineage indexed sets -/

/-- States of a tracker's mappings reachable by any sequence of successful
`_updateTrackedProducts` calls from the empty record. -/
inductive ReachTM : TrackerMappings → Prop where
  | base : ReachTM TrackerMappings.empty
  | step (src pid amt : Nat) {tm tm' : TrackerMappings} :
      ReachTM tm → updateTrackedProducts src pid amt tm = .ok tm' → ReachTM tm'

/-- Index-consistency invariant of a single indexed product set. -/
structure PTInv (pt : ProductsTracked) : Prop where
  idxPos : ∀ p ∈ pt.productIds, pt.productIndex p ≠ 0
  idxSound : ∀ p, pt.productIndex p ≠ 0 → pt.productIds[pt.productIndex p - 1]? = some p
  nodup : pt.productIds.Nodup
  amtPos : ∀ p, pt.productIndex p ≠ 0 → 0 < pt.amount p
  posIdx : ∀ p, 0 < pt.amount p → pt.productIndex p ≠ 0

/-- Index-consistency invariant of the two-level lineage structure. -/
structure TMInv (tm : TrackerMappings) : Prop where
  tIdxPos : ∀ x ∈ tm.trackerIds, tm.trackerIndex x ≠ 0
  tIdxSound : ∀ x, tm.trackerIndex x ≠ 0 → tm.trackerIds[tm.trackerIndex x - 1]? = some x
  tNodup : tm.trackerIds.Nodup
  tNonempty : ∀ x, tm.trackerIndex x ≠ 0 → (tm.productsTracked x).productIds ≠ []
  tIndexed : ∀ x, (tm.productsTracked x).productIds ≠ [] → tm.trackerIndex x ≠ 0
  pts : ∀ x, PTInv (tm.productsTracked x)

/-! ### Basic lemmas about the monadic combinators -/

theorem bindE_eq_ok {α β : Type} {x : Except Err α} {f : α → Except Err β} {b : β}
    (h : bindE x f = .ok b) : ∃ a, x = .ok a ∧ f a = .ok b := by
  cases x with
  | error e => simp [bindE] at h
  | ok a => exact ⟨a, rfl, h⟩

theorem bindE_ok {α β : Type} (a : α) (f : α → Except Err β) :
    bindE (.ok a) f = f a := rfl

theorem bindE_error {α β : Type} (e : Err) (f : α → Except Err β) :
    bindE (.error e) f = .error e := rfl

theorem reqP_elim {p : Prop} [Decidable p] {e : Err} {u : Unit}
    (h : reqP p e = .ok u) : p := by
  by_cases hp : p
  · exact hp
  · simp [reqP, hp] at h

theorem reqP_pos {p : Prop} [Decidable p] (e : Err) (h : p) : reqP p e = .ok () := by
  simp [reqP, h]

theorem reqP_neg {p : Prop} [Decidable p] (e : Err) (h : ¬ p) : reqP p e = .error e := by
  simp [reqP, h]

theorem safeAdd_elim {a b c : Nat} (h : safeAdd a b = .ok c) :
    c = a + b ∧ a + b < UINT_MAX := by
  by_cases hb : a + b < UINT_MAX
  · simp [safeAdd, hb] at h
    exact ⟨h.symm, hb⟩
  · simp [safeAdd, hb] at h

theorem safeAdd_pos {a b : Nat} (h : a + b < UINT_MAX) : safeAdd a b = .ok (a + b) := by
  simp [safeAdd, h]

theorem safeSub_elim {a b c : Nat} (h : safeSub a b = .ok c) :
    c = a - b ∧ b ≤ a := by
  by_cases hb : b ≤ a
  · simp [safeSub, hb] at h
    exact ⟨h.symm, hb⟩
  · simp [safeSub, hb] at h

theorem safeSub_pos {a b : Nat} (h : b ≤ a) : safeSub a b = .ok (a - b) := by
  simp [safeSub, h]

theorem upd_same {α : Type} (f : Nat → α) (k : Nat) (v : α) : upd f k v k = v := by
  simp [upd]

theorem upd_other {α : Type} (f : Nat → α) {k x : Nat} (v : α) (h : x ≠ k) :
    upd f k v x = f x := by
  simp [upd, h]

theorem upd2_same {α : Type} (f : Nat → Nat → α) (k1 k2 : Nat) (v : α) :
    upd2 f k1 k2 v k1 k2 = v := by
  simp [upd2]

theorem upd2_other {α : Type} (f : Nat → Nat → α) {k1 k2 x y : Nat} (v : α)
    (h : ¬ (x = k1 ∧ y = k2)) : upd2 f k1 k2 v x y = f x y := by
  simp only [upd2, if_neg h]

theorem ownerOf_some {s : State} {id : Nat} {a : Address} (h : s.owner id = some a) :
    ownerOf s id = .ok a := by
  unfold ownerOf
  rw [h]

theorem ownerOf_elim {s : State} {id : Nat} {a : Address} (h : ownerOf s id = .ok a) :
    s.owner id = some a := by
  unfold ownerOf at h
  cases hso : s.owner id with
  | some b =>
    rw [hso] at h
    cases h
    rfl
  | none =>
    rw [hso] at h
    cases h

/-! ### Lemmas about the state prelude of `track`/`trackUpdate` -/

theorem setDates_fields (fromDate thruDate : Nat) (description metadata : String)
    (trackerId : Nat) (s : State) :
    (setDates fromDate thruDate description metadata trackerId s).lockedAmount = s.lockedAmount ∧
    (setDates fromDate thruDate description metadata trackerId s).netAddress = s.netAddress ∧
    (setDates fromDate thruDate description metadata trackerId s).numTrackers = s.numTrackers ∧
    (setDates fromDate thruDate description metadata trackerId s).numProducts = s.numProducts ∧
    (setDates fromDate thruDate description metadata trackerId s).trackerMappings = s.trackerMappings ∧
    (setDates fromDate thruDate description metadata trackerId s).productData = s.productData ∧
    (setDates fromDate thruDate description metadata trackerId s).productBalance = s.productBalance ∧
    (setDates fromDate thruDate description metadata trackerId s).owner = s.owner ∧
    (setDates fromDate thruDate description metadata trackerId s).approvedAuditorsOnly = s.approvedAuditorsOnly ∧
    (setDates fromDate thruDate description metadata trackerId s).isAuditorApproved = s.isAuditorApproved ∧
    (∀ j, ((setDates fromDate thruDate description metadata trackerId s).trackerData j).trackee =
      (s.trackerData j).trackee) ∧
    (∀ j, ((setDates fromDate thruDate description metadata trackerId s).trackerData j).auditor =
      (s.trackerData j).auditor) ∧
    (∀ j, ((setDates fromDate thruDate description metadata trackerId s).trackerData j).totalProductAmounts =
      (s.trackerData j).totalProductAmounts) := by
  unfold setDates
  split <;> split <;> split <;> split <;>
    refine ⟨rfl, rfl, rfl, rfl, rfl, rfl, rfl, rfl, rfl, rfl, ?_, ?_, ?_⟩ <;>
    intro j <;> simp only [State.setTracker, upd] <;> split <;> simp_all

theorem isAuditorFor_of_eq {env : Env} {s t : State} {sender trackee : Address}
    (hn : t.netAddress = s.netAddress)
    (ha : t.approvedAuditorsOnly = s.approvedAuditorsOnly)
    (hp : t.isAuditorApproved = s.isAuditorApproved) :
    isAuditorFor env t sender trackee = isAuditorFor env s sender trackee := by
  simp [isAuditorFor, hn, ha, hp]

theorem setTracker_trackerData (s : State) (id : Nat) (f : TrackerDetails → TrackerDetails)
    (j : Nat) :
    (s.setTracker id f).trackerData j = if j = id then f (s.trackerData id) else s.trackerData j := by
  simp [State.setTracker, upd]

/-- Projections preserved by the `trackUpdate` prelude (the `dateUpdated`
refresh followed by the optional date/description/metadata writes). -/
theorem trackUpdatePrelude_fields (now fromDate thruDate : Nat)
    (description metadata : String) (trackerId : Nat) (s : State) :
    (setDates fromDate thruDate description metadata trackerId
        (s.setTracker trackerId (fun d => { d with dateUpdated := now }))).lockedAmount
      = s.lockedAmount ∧
    (setDates fromDate thruDate description metadata trackerId
        (s.setTracker trackerId (fun d => { d with dateUpdated := now }))).netAddress
      = s.netAddress ∧
    (setDates fromDate thruDate description metadata trackerId
        (s.setTracker trackerId (fun d => { d with dateUpdated := now }))).numTrackers
      = s.numTrackers ∧
    (setDates fromDate thruDate description metadata trackerId
        (s.setTracker trackerId (fun d => { d with dateUpdated := now }))).numProducts
      = s.numProducts ∧
    (setDates fromDate thruDate description metadata trackerId
        (s.setTracker trackerId (fun d => { d with dateUpdated := now }))).trackerMappings
      = s.trackerMappings ∧
    (setDates fromDate thruDate description metadata trackerId
        (s.setTracker trackerId (fun d => { d with dateUpdated := now }))).productData
      = s.productData ∧
    (setDates fromDate thruDate description metadata trackerId
        (s.setTracker trackerId (fun d => { d with dateUpdated := now }))).productBalance
      = s.productBalance ∧
    (setDates fromDate thruDate description metadata trackerId
        (s.setTracker trackerId (fun d => { d with dateUpdated := now }))).owner
      = s.owner ∧
    (setDates fromDate thruDate description metadata trackerId
        (s.setTracker trackerId (fun d => { d with dateUpdated := now }))).approvedAuditorsOnly
      = s.approvedAuditorsOnly ∧
    (setDates fromDate thruDate description metadata trackerId
        (s.setTracker trackerId (fun d => { d with dateUpdated := now }))).isAuditorApproved
      = s.isAuditorApproved ∧
    (∀ j, ((setDates fromDate thruDate description metadata trackerId
        (s.setTracker trackerId (fun d => { d with dateUpdated := now }))).trackerData j).trackee
      = (s.trackerData j).trackee) ∧
    (∀ j, ((setDates fromDate thruDate description metadata trackerId
        (s.setTracker trackerId (fun d => { d with dateUpdated := now }))).trackerData j).auditor
      = (s.trackerData j).auditor) ∧
    (∀ j, ((setDates fromDate thruDate description metadata trackerId
        (s.setTracker trackerId (fun d => { d with dateUpdated := now }))).trackerData j).totalProductAmounts
      = (s.trackerData j).totalProductAmounts) := by
  obtain ⟨hl, hn, hnt, hnp, hm, hpd, hpb, how, hao, hap, htrk, haud, htot⟩ :=
    setDates_fields fromDate thruDate description metadata trackerId
      (s.setTracker trackerId (fun d => { d with dateUpdated := now }))
  refine ⟨hl.trans rfl, hn.trans rfl, hnt.trans rfl, hnp.trans rfl, hm.trans rfl,
    hpd.trans rfl, hpb.trans rfl, how.trans rfl, hao.trans rfl, hap.trans rfl, ?_, ?_, ?_⟩ <;>
    intro j
  · rw [htrk j, setTracker_trackerData]
    split <;> simp_all
  · rw [haud j, setTracker_trackerData]
    split <;> simp_all
  · rw [htot j, setTracker_trackerData]
    split <;> simp_all

/-! ### Elimination and introduction lemmas for `_trackTokens` -/

theorem trackTokens_err_notIndustry {env : Env} {sender : Address} {trackerId : Nat}
    {tids tams : List Nat} {s : State}
    (h : ¬ env.isIndustry (s.trackerData trackerId).trackee = true) :
    trackTokens env sender trackerId tids tams s = .error .NotIndustry := by
  unfold trackTokens
  rw [reqP_neg _ h, bindE_error]

theorem trackTokens_err_notAuditor {env : Env} {sender : Address} {trackerId : Nat}
    {tids tams : List Nat} {s : State}
    (h1 : env.isIndustry (s.trackerData trackerId).trackee = true)
    (h2 : ¬ isAuditorFor env s sender (s.trackerData trackerId).trackee = true) :
    trackTokens env sender trackerId tids tams s = .error .NotAuditor := by
  unfold trackTokens
  rw [reqP_pos _ h1, bindE_ok, reqP_neg _ h2, bindE_error]

theorem trackTokens_err_length {env : Env} {sender : Address} {trackerId : Nat}
    {tids tams : List Nat} {s : State}
    (h1 : env.isIndustry (s.trackerData trackerId).trackee = true)
    (h2 : isAuditorFor env s sender (s.trackerData trackerId).trackee = true)
    (h3 : tams.length ≠ tids.length) :
    trackTokens env sender trackerId tids tams s = .error .LengthMismatch := by
  unfold trackTokens
  rw [reqP_pos _ h1, bindE_ok, reqP_pos _ h2, bindE_ok, reqP_neg _ h3, bindE_error]

theorem trackTokens_ok_elim {env : Env} {sender : Address} {trackerId : Nat}
    {tids tams : List Nat} {s s' : State}
    (h : trackTokens env sender trackerId tids tams s = .ok s') :
    env.isIndustry (s.trackerData trackerId).trackee = true ∧
    isAuditorFor env s sender (s.trackerData trackerId).trackee = true ∧
    tams.length = tids.length ∧
    trackTokensLoop env sender trackerId (tids.zip tams) s = .ok s' := by
  unfold trackTokens at h
  obtain ⟨u1, h1, h⟩ := bindE_eq_ok h
  obtain ⟨u2, h2, h⟩ := bindE_eq_ok h
  obtain ⟨u3, h3, h⟩ := bindE_eq_ok h
  exact ⟨reqP_elim h1, reqP_elim h2, reqP_elim h3, h⟩

/-! ### Claim C8 -/

/-- C8 counterexample: `track` with `tokenIds = []` and `tokenAmounts = [5]` —
the two arrays have different lengths, yet the call SUCCEEDS (the source only
reaches the length check inside `_trackTokens` when `tokenIds.length > 0`), so
it does not fail with `LengthMismatch` as the claim states. -/
theorem C8_empty_ids_counterexample :
    ([] : List Nat).length ≠ ([5] : List Nat).length ∧
    c8Run.map (fun _ => true) = .ok true :=
  ⟨by decide, rfl⟩

/-- C8 (amended): when `tokenIds` is NONEMPTY and the mint and authorization
checks pass, a length mismatch makes `track` fail with `LengthMismatch`; when
`tokenIds` is empty the arrays are never compared and the call succeeds
regardless of `tokenAmounts`. -/
theorem C8_track_lengthMismatch (env : Env) (now : Nat) (sender issuedTo trackee : Address)
    (tokenIds tokenAmounts : List Nat) (fromDate thruDate : Nat)
    (description metadata : String) (s : State) :
    (issuedTo ≠ 0 → s.owner (s.numTrackers + 1) = none → tokenIds ≠ [] →
      tokenAmounts.length ≠ tokenIds.length →
      env.isIndustry trackee = true → isAuditorFor env s sender trackee = true →
      track env now sender issuedTo trackee tokenIds tokenAmounts fromDate thruDate
        description metadata s = .error .LengthMismatch) ∧
    (issuedTo ≠ 0 → s.owner (s.numTrackers + 1) = none → tokenIds = [] →
      ∃ s', track env now sender issuedTo trackee tokenIds tokenAmounts fromDate thruDate
        description metadata s = .ok s') := by
  obtain ⟨hl, hn, hnt, hnp, hm, hpd, hpb, how, hao, hap, htrk, haud, htot⟩ :=
    setDates_fields fromDate thruDate description metadata (s.numTrackers + 1)
      (mintState now sender issuedTo trackee s)
  constructor
  · intro h1 h2 h3 h4 h5 h6
    unfold track
    rw [reqP_pos _ h1, bindE_ok, reqP_pos _ h2, bindE_ok, if_pos (List.length_pos.mpr h3)]
    have ht : ((setDates fromDate thruDate description metadata (s.numTrackers + 1)
        (mintState now sender issuedTo trackee s)).trackerData (s.numTrackers + 1)).trackee
        = trackee := by
      rw [htrk]
      simp [mintState, upd]
    apply trackTokens_err_length
    · rw [ht]
      exact h5
    · rw [ht, isAuditorFor_of_eq (hn.trans rfl) (hao.trans rfl) (hap.trans rfl)]
      exact h6
    · exact h4
  · intro h1 h2 h3
    subst h3
    unfold track
    rw [reqP_pos _ h1, bindE_ok, reqP_pos _ h2, bindE_ok, if_neg (by decide)]
    exact ⟨_, rfl⟩

/-- C8 witness for the amended claim: with nonempty mismatched arrays the call
fails with `LengthMismatch`; with empty `tokenIds` and `tokenAmounts = [5]`
the call succeeds. -/
theorem C8_track_lengthMismatch_witness :
    track envW 0 10 7 9 [3] [] 0 0 "" "" (State.init 1) = .error .LengthMismatch ∧
    ∃ s', track envW 0 10 7 9 [] [5] 0 0 "" "" (State.init 1) = .ok s' :=
  ⟨(C8_track_lengthMismatch envW 0 10 7 9 [3] [] 0 0 "" "" (State.init 1)).1
      (by decide) rfl (by decide) (by decide) rfl rfl,
   (C8_track_lengthMismatch envW 0 10 7 9 [] [5] 0 0 "" "" (State.init 1)).2
      (by decide) rfl rfl⟩

/-! ### Claim C10 -/

/-- C10: `trackUpdate` — even with both token arrays empty — cannot succeed
unless the tracker's trackee is a registered industry account AND the caller is
an authorized auditor for that trackee, because it unconditionally delegates to
`_trackTokens`, which checks both before touching any token; moreover, once the
`notAudited`/`trackerExists` guards pass, a non-industry trackee yields
`NotIndustry` and an unauthorized caller yields `NotAuditor`. -/
theorem C10_trackUpdate_authorization (env : Env) (now : Nat) (sender : Address)
    (trackerId : Nat) (tokenIds tokenAmounts : List Nat) (fromDate thruDate : Nat)
    (description metadata : String) (s : State) :
    (¬ (env.isIndustry (s.trackerData trackerId).trackee = true ∧
        isAuditorFor env s sender (s.trackerData trackerId).trackee = true) →
      ∀ s', trackUpdate env now sender trackerId tokenIds tokenAmounts fromDate thruDate
        description metadata s ≠ .ok s') ∧
    ((s.trackerData trackerId).auditor = 0 → trackerId ≤ s.numTrackers →
      (¬ env.isIndustry (s.trackerData trackerId).trackee = true →
        trackUpdate env now sender trackerId tokenIds tokenAmounts fromDate thruDate
          description metadata s = .error .NotIndustry) ∧
      (env.isIndustry (s.trackerData trackerId).trackee = true →
        ¬ isAuditorFor env s sender (s.trackerData trackerId).trackee = true →
        trackUpdate env now sender trackerId tokenIds tokenAmounts fromDate thruDate
          description metadata s = .error .NotAuditor)) := by
  obtain ⟨hl, hn, hnt, hnp, hm, hpd, hpb, how, hao, hap, htrk, haud, htot⟩ :=
    trackUpdatePrelude_fields now fromDate thruDate description metadata trackerId s
  constructor
  · intro hna s' hok
    unfold trackUpdate at hok
    obtain ⟨u1, h1, hok⟩ := bindE_eq_ok hok
    obtain ⟨u2, h2, hok⟩ := bindE_eq_ok hok
    obtain ⟨hind, haudit, _, _⟩ := trackTokens_ok_elim hok
    rw [htrk] at hind
    rw [htrk, isAuditorFor_of_eq hn hao hap] at haudit
    exact hna ⟨hind, haudit⟩
  · intro hA hE
    constructor
    · intro hni
      unfold trackUpdate
      rw [reqP_pos _ hA, bindE_ok, reqP_pos _ hE, bindE_ok]
      exact trackTokens_err_notIndustry (by rw [htrk]; exact hni)
    · intro hi hna
      unfold trackUpdate
      rw [reqP_pos _ hA, bindE_ok, reqP_pos _ hE, bindE_ok]
      exact trackTokens_err_notAuditor (by rw [htrk]; exact hi)
        (by rw [htrk, isAuditorFor_of_eq hn hao hap]; exact hna)

/-- C10 witness: on concrete states, `trackUpdate` with empty token arrays
fails with `NotIndustry` when the trackee (8) is not an industry account, and
with `NotAuditor` when the caller (11) is not a network auditor. -/
theorem C10_trackUpdate_authorization_witness :
    trackUpdate envW 0 10 1 [] [] 0 0 "" "" c10State = .error .NotIndustry ∧
    trackUpdate envW 0 11 1 [] [] 0 0 "" "" c6State = .error .NotAuditor :=
  ⟨((C10_trackUpdate_authorization envW 0 10 1 [] [] 0 0 "" "" c10State).2
      rfl (by decide)).1 (by decide),
   ((C10_trackUpdate_authorization envW 0 11 1 [] [] 0 0 "" "" c6State).2
      rfl (by decide)).2 rfl (by decide)⟩

/-! ### Lemmas about the `_trackTokens` loop and claim C3 -/

/-- On success, the loop adds exactly the total submitted amount of each token
id to `lockedAmount`. -/
theorem trackTokensLoop_locked {env : Env} {sender : Address} {trackerId : Nat} :
    ∀ (l : List (Nat × Nat)) (s s' : State),
      trackTokensLoop env sender trackerId l s = .ok s' →
      ∀ t, s'.lockedAmount t = s.lockedAmount t + submittedAmount t l := by
  intro l
  induction l with
  | nil =>
    intro s s' h t
    simp only [trackTokensLoop] at h
    cases h
    simp [submittedAmount]
  | cons p rest ih =>
    obtain ⟨tid, a⟩ := p
    intro s s' h t
    unfold trackTokensLoop at h
    obtain ⟨u1, h1, h⟩ := bindE_eq_ok h
    obtain ⟨l1, h2, h⟩ := bindE_eq_ok h
    obtain ⟨tm, h3, h⟩ := bindE_eq_ok h
    obtain ⟨hval, _⟩ := safeAdd_elim h2
    subst hval
    have hrec := ih _ _ h t
    simp only [upd] at hrec
    simp only [submittedAmount]
    by_cases ht : t = tid
    · subst ht
      rw [if_pos rfl] at hrec
      rw [hrec, if_pos rfl]
      omega
    · rw [if_neg ht] at hrec
      rw [hrec, if_neg (fun hh => ht hh.symm)]
      omega

/-- On success (for a caller other than the network contract), every submitted
pair satisfied the availability check with respect to the PRE-call locked
amounts. -/
theorem trackTokensLoop_bounds {env : Env} {sender : Address} {trackerId : Nat} :
    ∀ (l : List (Nat × Nat)) (s s' : State),
      trackTokensLoop env sender trackerId l s = .ok s' →
      sender ≠ s.netAddress →
      ∀ p ∈ l, s.lockedAmount p.1 ≤ env.availAmount p.1 ∧
        p.2 ≤ env.availAmount p.1 - s.lockedAmount p.1 := by
  intro l
  induction l with
  | nil =>
    intro s s' _ _ p hp
    simp at hp
  | cons q rest ih =>
    obtain ⟨tid, a⟩ := q
    intro s s' h hne p hp
    unfold trackTokensLoop at h
    obtain ⟨u1, h1, h⟩ := bindE_eq_ok h
    obtain ⟨l1, h2, h⟩ := bindE_eq_ok h
    obtain ⟨tm, h3, h⟩ := bindE_eq_ok h
    rw [if_neg hne] at h1
    obtain ⟨d, hsub, hreq⟩ := bindE_eq_ok h1
    obtain ⟨hd, hle⟩ := safeSub_elim hsub
    subst hd
    have hhead : s.lockedAmount tid ≤ env.availAmount tid ∧
        a ≤ env.availAmount tid - s.lockedAmount tid := ⟨hle, reqP_elim hreq⟩
    rcases List.mem_cons.mp hp with hp | hp
    · subst hp
      exact hhead
    · obtain ⟨hv, _⟩ := safeAdd_elim h2
      subst hv
      have hmono : s.lockedAmount p.1 ≤ upd s.lockedAmount tid (s.lockedAmount tid + a) p.1 := by
        by_cases hu : p.1 = tid
        · rw [hu, upd_same]
          exact Nat.le_add_right _ _
        · rw [upd_other _ _ hu]
      have hr := ih _ _ h hne p hp
      simp only [upd] at hr hmono
      exact ⟨le_trans hmono hr.1, le_trans hr.2 (Nat.sub_le_sub_left hmono _)⟩

/-- C3 (amended): for a successful `trackUpdate`, `lockedAmount[t]` afterwards
equals its pre-call value plus the TOTAL amount submitted for `t` over all
pairs of the call (which is the pair's amount whenever `t` is submitted once);
a call from a non-network caller submitting any pair demanding more than
`available - lockedAmount` (pre-call) cannot succeed; and a single-pair call
violating the availability check, with all earlier guards passing, fails with
exactly `InsufficientAvailable`. -/
theorem C3_lockedAmount_accounting (env : Env) (now : Nat) (sender : Address)
    (trackerId : Nat) (tokenIds tokenAmounts : List Nat) (fromDate thruDate : Nat)
    (description metadata : String) (s : State) :
    (∀ s', trackUpdate env now sender trackerId tokenIds tokenAmounts fromDate thruDate
        description metadata s = .ok s' →
      ∀ t, s'.lockedAmount t = s.lockedAmount t + submittedAmount t (tokenIds.zip tokenAmounts)) ∧
    (sender ≠ s.netAddress →
      (∃ p ∈ tokenIds.zip tokenAmounts, env.availAmount p.1 - s.lockedAmount p.1 < p.2) →
      ∀ s', trackUpdate env now sender trackerId tokenIds tokenAmounts fromDate thruDate
        description metadata s ≠ .ok s') ∧
    ((s.trackerData trackerId).auditor = 0 → trackerId ≤ s.numTrackers →
      env.isIndustry (s.trackerData trackerId).trackee = true →
      isAuditorFor env s sender (s.trackerData trackerId).trackee = true →
      sender ≠ s.netAddress →
      ∀ t a, tokenIds = [t] → tokenAmounts = [a] →
        s.lockedAmount t ≤ env.availAmount t →
        env.availAmount t - s.lockedAmount t < a →
        trackUpdate env now sender trackerId tokenIds tokenAmounts fromDate thruDate
          description metadata s = .error .InsufficientAvailable) := by
  obtain ⟨hl, hn, hnt, hnp, hm, hpd, hpb, how, hao, hap, htrk, haud, htot⟩ :=
    trackUpdatePrelude_fields now fromDate thruDate description metadata trackerId s
  refine ⟨?_, ?_, ?_⟩
  · intro s' hok t
    unfold trackUpdate at hok
    obtain ⟨u1, h1, hok⟩ := bindE_eq_ok hok
    obtain ⟨u2, h2, hok⟩ := bindE_eq_ok hok
    obtain ⟨_, _, _, hloop⟩ := trackTokens_ok_elim hok
    have := trackTokensLoop_locked _ _ _ hloop t
    rw [hl] at this
    exact this
  · intro hne hbad s' hok
    unfold trackUpdate at hok
    obtain ⟨u1, h1, hok⟩ := bindE_eq_ok hok
    obtain ⟨u2, h2, hok⟩ := bindE_eq_ok hok
    obtain ⟨_, _, _, hloop⟩ := trackTokens_ok_elim hok
    obtain ⟨p, hp, hlt⟩ := hbad
    have := trackTokensLoop_bounds _ _ _ hloop (by rw [hn]; exact hne) p hp
    rw [hl] at this
    omega
  · intro hA hE hi ha hne t a hids hams hle hlt
    subst hids
    subst hams
    unfold trackUpdate
    rw [reqP_pos _ hA, bindE_ok, reqP_pos _ hE, bindE_ok]
    unfold trackTokens
    rw [reqP_pos _ (by rw [htrk]; exact hi), bindE_ok,
      reqP_pos _ (by rw [htrk, isAuditorFor_of_eq hn hao hap]; exact ha), bindE_ok,
      reqP_pos _ (show ([a] : List Nat).length = [t].length from rfl), bindE_ok]
    show trackTokensLoop env sender trackerId [(t, a)] _ = _
    unfold trackTokensLoop
    rw [if_neg (fun hh => hne (hh.trans hn))]
    rw [hl, safeSub_pos hle, bindE_ok, reqP_neg _ (by omega), bindE_error]

/-- C3 counterexample: submitting the pair `(1,1)` twice in one call increases
`lockedAmount[1]` from 0 to 2, not by the single pair's amount 1, refuting the
per-pair reading of the claim. -/
theorem C3_duplicate_pair_counterexample :
    c3PreState.lockedAmount 1 = 0 ∧
    ((1, 1) ∈ ([1, 1] : List Nat).zip [1, 1]) ∧
    c3DupRun.map (fun s => s.lockedAmount 1) = .ok 2 ∧
    (2 : Nat) ≠ c3PreState.lockedAmount 1 + 1 :=
  ⟨rfl, by decide, rfl, by decide⟩

theorem updTokAmt_eq4 {env : Env} {f : Nat → Nat} {t a : Nat} (h : env.tokenTypeId t = 4) :
    updTokAmt env f t a = upd f t (f t + a) := by
  unfold updTokAmt
  rw [if_pos h]

theorem updTokAmt_eq2 {env : Env} {f : Nat → Nat} {t a : Nat}
    (h4 : env.tokenTypeId t ≠ 4) (h2 : env.tokenTypeId t = 2) :
    updTokAmt env f t a = upd f t (f t - a) := by
  unfold updTokAmt
  rw [if_neg h4, if_pos h2]

theorem updTokAmt_eqOther {env : Env} {f : Nat → Nat} {t a : Nat}
    (h4 : env.tokenTypeId t ≠ 4) (h2 : env.tokenTypeId t ≠ 2) :
    updTokAmt env f t a = f := by
  unfold updTokAmt
  rw [if_neg h4, if_neg h2]

/-- `_addTokenAmounts` on a type-4 token succeeds when the addition does not
overflow, and adds the amount to the token's per-token amount. -/
theorem addTokenAmounts_ok4 {tm : TrackerMappings} {t a idx : Nat}
    (h : tm.amount t + a < UINT_MAX) :
    ∃ tm', addTokenAmounts tm t a idx 4 = .ok tm' ∧
      tm'.amount = upd tm.amount t (tm.amount t + a) := by
  unfold addTokenAmounts
  rw [safeAdd_pos h]
  simp only [reduceIte, bindE_ok]
  split
  · split
    · exact ⟨_, rfl, rfl⟩
    · exact ⟨_, rfl, rfl⟩
  · exact ⟨_, rfl, rfl⟩

/-- `_addTokenAmounts` on a type-2 token succeeds when the subtraction does not
underflow, and subtracts the amount from the token's per-token amount. -/
theorem addTokenAmounts_ok2 {tm : TrackerMappings} {t a idx : Nat}
    (h : a ≤ tm.amount t) :
    ∃ tm', addTokenAmounts tm t a idx 2 = .ok tm' ∧
      tm'.amount = upd tm.amount t (tm.amount t - a) := by
  unfold addTokenAmounts
  rw [safeSub_pos h, if_neg (show ¬ ((2 : Nat) = 4) by decide)]
  simp only [reduceIte, bindE_ok]
  split
  · split
    · exact ⟨_, rfl, rfl⟩
    · exact ⟨_, rfl, rfl⟩
  · exact ⟨_, rfl, rfl⟩

/-- `_addTokenAmounts` on any other token type always succeeds and leaves the
amount map unchanged. -/
theorem addTokenAmounts_okOther {tm : TrackerMappings} {t a idx ty : Nat}
    (h4 : ty ≠ 4) (h2 : ty ≠ 2) :
    ∃ tm', addTokenAmounts tm t a idx ty = .ok tm' ∧ tm'.amount = tm.amount := by
  unfold addTokenAmounts
  simp only [if_neg h4, if_neg h2, bindE_ok]
  split
  · split
    · exact ⟨_, rfl, rfl⟩
    · exact ⟨_, rfl, rfl⟩
  · exact ⟨_, rfl, rfl⟩

/-- If `tokensPre` holds of the pre-state's locked and per-token amount maps,
the `_trackTokens` loop runs to completion. -/
theorem tokensPre_loop_ok {env : Env} {sender : Address} {trackerId : Nat} :
    ∀ (l : List (Nat × Nat)) (s : State),
      tokensPre env sender s.netAddress l s.lockedAmount ((s.trackerMappings trackerId).amount) →
      ∃ s', trackTokensLoop env sender trackerId l s = .ok s' := by
  intro l
  induction l with
  | nil =>
    intro s _
    exact ⟨s, rfl⟩
  | cons p rest ih =>
    obtain ⟨t, a⟩ := p
    intro s hpre
    obtain ⟨hck, hov, h4, h2, hrest⟩ := hpre
    unfold trackTokensLoop
    have hcheck : (if sender = s.netAddress then Except.ok ()
        else bindE (safeSub (env.availAmount t) (s.lockedAmount t)) fun d =>
          reqP (a ≤ d) .InsufficientAvailable) = .ok () := by
      by_cases hsn : sender = s.netAddress
      · rw [if_pos hsn]
      · rcases hck with hck | ⟨hle, hge⟩
        · exact absurd hck hsn
        · rw [if_neg hsn, safeSub_pos hle, bindE_ok, reqP_pos _ hge]
    rw [hcheck, bindE_ok, safeAdd_pos hov, bindE_ok]
    by_cases hty4 : env.tokenTypeId t = 4
    · rw [hty4]
      obtain ⟨tm', hadd, hamt⟩ := @addTokenAmounts_ok4 (s.trackerMappings trackerId)
        t a ((s.trackerMappings trackerId).idIndex t) (h4 hty4)
      rw [hadd]
      simp only [bindE_ok]
      refine ih _ ?_
      show tokensPre env sender s.netAddress rest (upd s.lockedAmount t (s.lockedAmount t + a)) _
      rw [show (upd s.trackerMappings trackerId tm' trackerId).amount = tm'.amount by
        rw [upd_same]]
      rw [hamt, ← @updTokAmt_eq4 env ((s.trackerMappings trackerId).amount) t a hty4]
      exact hrest
    · by_cases hty2 : env.tokenTypeId t = 2
      · rw [hty2]
        obtain ⟨tm', hadd, hamt⟩ := @addTokenAmounts_ok2 (s.trackerMappings trackerId)
          t a ((s.trackerMappings trackerId).idIndex t) (h2 hty2)
        rw [hadd]
        simp only [bindE_ok]
        refine ih _ ?_
        show tokensPre env sender s.netAddress rest (upd s.lockedAmount t (s.lockedAmount t + a)) _
        rw [show (upd s.trackerMappings trackerId tm' trackerId).amount = tm'.amount by
          rw [upd_same]]
        rw [hamt, ← @updTokAmt_eq2 env ((s.trackerMappings trackerId).amount) t a hty4 hty2]
        exact hrest
      · obtain ⟨tm', hadd, hamt⟩ := @addTokenAmounts_okOther (s.trackerMappings trackerId)
          t a ((s.trackerMappings trackerId).idIndex t) (env.tokenTypeId t) hty4 hty2
        rw [hadd]
        simp only [bindE_ok]
        refine ih _ ?_
        show tokensPre env sender s.netAddress rest (upd s.lockedAmount t (s.lockedAmount t + a)) _
        rw [show (upd s.trackerMappings trackerId tm' trackerId).amount = tm'.amount by
          rw [upd_same]]
        rw [hamt, ← @updTokAmt_eqOther env ((s.trackerMappings trackerId).amount) t a
          hty4 hty2]
        exact hrest

/-- If `productsPre` holds of the pre-state's product data, running total, and
product counter, the `productsUpdate` loop runs to completion. -/
theorem productsPre_loop_ok {sender : Address} {trackerId : Nat} :
    ∀ (l : List (Nat × Nat × String × String × String)) (s : State),
      productsPre sender trackerId l s.productData
        ((s.trackerData trackerId).totalProductAmounts) s.numProducts →
      ∃ s', productsUpdateLoop sender trackerId l s = .ok s' := by
  intro l
  induction l with
  | nil =>
    intro s _
    exact ⟨s, rfl⟩
  | cons q rest ih =>
    obtain ⟨pid0, amt, pname, punit, punitAmount⟩ := q
    intro s hpre
    unfold productsUpdateLoop
    unfold productsPre at hpre
    by_cases hpid : 0 < pid0
    · rw [if_pos hpid] at hpre
      obtain ⟨hb, hle, hau, hbound, hrest⟩ := hpre
      rw [if_pos hpid, reqP_pos _ hb]
      rw [safeSub_pos hle, reqP_pos _ hau]
      simp only [bindE_ok]
      rw [safeAdd_pos (by omega)]
      simp only [bindE_ok]
      refine ih _ ?_
      show productsPre sender trackerId rest
        (updProdData s.productData pid0 amt pname punit punitAmount)
        ((upd s.trackerData trackerId
          { s.trackerData trackerId with
            totalProductAmounts := (s.trackerData trackerId).totalProductAmounts - amt + amt })
          trackerId).totalProductAmounts
        s.numProducts
      rw [upd_same, Nat.sub_add_cancel hle]
      exact hrest
    · rw [if_neg hpid] at hpre
      obtain ⟨hbound, hrest⟩ := hpre
      rw [if_neg hpid]
      simp only [bindE_ok]
      rw [safeAdd_pos hbound]
      simp only [bindE_ok]
      refine ih _ ?_
      show productsPre sender trackerId rest
        (updProdData (upd s.productData (s.numProducts + 1)
            { s.productData (s.numProducts + 1) with trackerId := trackerId, auditor := sender })
          (s.numProducts + 1) amt pname punit punitAmount)
        ((upd s.trackerData trackerId
          { s.trackerData trackerId with
            totalProductAmounts := (s.trackerData trackerId).totalProductAmounts + amt })
          trackerId).totalProductAmounts
        (s.numProducts + 1)
      rw [upd_same]
      exact hrest

/-- `_updateTrackedProducts` succeeds when the amount addition does not
overflow, the new tracked amount is positive, and (if the product is already
indexed) the product array is nonempty. -/
theorem updateTrackedProducts_ok {src pid amt : Nat} {tm : TrackerMappings}
    (hov : (tm.productsTracked src).amount pid + amt < UINT_MAX)
    (hpos : 0 < (tm.productsTracked src).amount pid + amt)
    (hne : (tm.productsTracked src).productIndex pid ≠ 0 →
      (tm.productsTracked src).productIds ≠ []) :
    ∃ tm', updateTrackedProducts src pid amt tm = .ok tm' := by
  unfold updateTrackedProducts
  simp only [bindE_ok]
  rw [safeAdd_pos hov]
  simp only [bindE_ok]
  rw [if_pos hpos]
  by_cases hidx : (tm.productsTracked src).productIndex pid = 0
  · rw [if_pos hidx]
    simp only [bindE_ok]
    rw [if_pos (by simp)]
    split
    · exact ⟨_, rfl⟩
    · exact ⟨_, rfl⟩
  · rw [if_neg hidx]
    simp only [bindE_ok]
    rw [if_pos (List.length_pos.mpr (hne hidx))]
    split
    · exact ⟨_, rfl⟩
    · exact ⟨_, rfl⟩

/-- On success, `_updateTrackedProducts` adds exactly the submitted amount to
the tracked amount of `(sourceTrackerId, productId)`. -/
theorem updateTrackedProducts_amount {src pid amt : Nat} {tm tm' : TrackerMappings}
    (h : updateTrackedProducts src pid amt tm = .ok tm') :
    (tm'.productsTracked src).amount pid = (tm.productsTracked src).amount pid + amt := by
  unfold updateTrackedProducts at h
  simp only [bindE_ok] at h
  obtain ⟨a, hadd, h⟩ := bindE_eq_ok h
  obtain ⟨hA, _⟩ := safeAdd_elim hadd
  subst hA
  obtain ⟨pt2, hpt, h⟩ := bindE_eq_ok h
  have hamt : pt2.amount pid = (tm.productsTracked src).amount pid + amt := by
    split at hpt
    · split at hpt <;> (cases hpt; simp [upd])
    · obtain ⟨pt1, hpt1, h2⟩ := bindE_eq_ok hpt
      cases h2
      simp only [upd_same]
      omega
  split at h
  · split at h <;> (cases h; simpa [upd] using hamt)
  · obtain ⟨tmB, hB, h2⟩ := bindE_eq_ok h
    cases h2
    simpa [upd] using hamt

theorem updateTrackedProductsS_ok {trackerId srcId pid amt : Nat} {s : State}
    {tm' : TrackerMappings}
    (h : updateTrackedProducts srcId pid amt (s.trackerMappings trackerId) = .ok tm') :
    updateTrackedProductsS trackerId srcId pid amt s =
      .ok { s with trackerMappings := upd s.trackerMappings trackerId tm' } := by
  unfold updateTrackedProductsS
  rw [h, bindE_ok]

theorem updateTrackedProductsS_elim {trackerId srcId pid amt : Nat} {s s'' : State}
    (h : updateTrackedProductsS trackerId srcId pid amt s = .ok s'') :
    ∃ tm', updateTrackedProducts srcId pid amt (s.trackerMappings trackerId) = .ok tm' ∧
      s'' = { s with trackerMappings := upd s.trackerMappings trackerId tm' } := by
  unfold updateTrackedProductsS at h
  obtain ⟨tm', htm, h2⟩ := bindE_eq_ok h
  cases h2
  exact ⟨tm', htm, rfl⟩

/-! ### Claim C2 -/

/-- C2: on an audited tracker (`auditor ≠ 0`), `trackUpdate`, `productsUpdate`
and `trackProduct` all revert with `AlreadyAudited` (the `notAudited` modifier
runs first, so no state is changed); a successful `removeAudit` clears the
auditor, and on the resulting state each of the three operations succeeds
whenever its remaining preconditions (existence, authorization, array lengths,
balances and the loop-level arithmetic conditions) hold. -/
theorem C2_audit_blocks_mutations (env : Env) (now : Nat) (sender sender2 : Address)
    (trackerId : Nat) (s : State) :
    ((s.trackerData trackerId).auditor ≠ 0 →
      (∀ tokenIds tokenAmounts fromDate thruDate description metadata,
        trackUpdate env now sender trackerId tokenIds tokenAmounts fromDate thruDate
          description metadata s = .error .AlreadyAudited) ∧
      (∀ productIds productAmounts productNames productUnits productUnitAmounts,
        productsUpdate env sender trackerId productIds productAmounts productNames
          productUnits productUnitAmounts s = .error .AlreadyAudited) ∧
      (∀ srcId productId productAmount,
        trackProduct env sender trackerId srcId productId productAmount s =
          .error .AlreadyAudited)) ∧
    (∀ s', removeAudit env sender2 trackerId s = .ok s' →
      (s'.trackerData trackerId).auditor = 0 ∧
      (∀ tokenIds tokenAmounts fromDate thruDate description metadata,
        trackerId ≤ s'.numTrackers →
        env.isIndustry (s'.trackerData trackerId).trackee = true →
        isAuditorFor env s' sender (s'.trackerData trackerId).trackee = true →
        (tokenAmounts : List Nat).length = (tokenIds : List Nat).length →
        tokensPre env sender s'.netAddress (tokenIds.zip tokenAmounts) s'.lockedAmount
          ((s'.trackerMappings trackerId).amount) →
        ∃ s'', trackUpdate env now sender trackerId tokenIds tokenAmounts fromDate thruDate
          description metadata s' = .ok s'') ∧
      (∀ productIds productAmounts productNames productUnits productUnitAmounts,
        trackerId ≤ s'.numTrackers →
        isAuditorFor env s' sender (s'.trackerData trackerId).trackee = true →
        (productAmounts : List Nat).length = (productIds : List Nat).length →
        (productNames : List String).length = productIds.length →
        (productUnitAmounts : List String).length = productIds.length →
        (productUnits : List String).length = productIds.length →
        productsPre sender trackerId
          (zip5 productIds productAmounts productNames productUnits productUnitAmounts)
          s'.productData ((s'.trackerData trackerId).totalProductAmounts) s'.numProducts →
        ∃ s'', productsUpdate env sender trackerId productIds productAmounts productNames
          productUnits productUnitAmounts s' = .ok s'') ∧
      (∀ srcId productId productAmount,
        trackerId ≤ s'.numTrackers →
        (isAuditorFor env s' sender sender = true ∨ s'.owner trackerId = some sender) →
        trackerId ≠ (s'.productData productId).trackerId →
        productAmount < s'.productBalance productId sender →
        ((s'.trackerMappings trackerId).productsTracked srcId).amount productId
          + productAmount < UINT_MAX →
        0 < ((s'.trackerMappings trackerId).productsTracked srcId).amount productId
          + productAmount →
        (((s'.trackerMappings trackerId).productsTracked srcId).productIndex productId ≠ 0 →
          ((s'.trackerMappings trackerId).productsTracked srcId).productIds ≠ []) →
        ∃ s'', trackProduct env sender trackerId srcId productId productAmount s' = .ok s'')) := by
  constructor
  · intro hA
    refine ⟨?_, ?_, ?_⟩
    · intro tokenIds tokenAmounts fromDate thruDate description metadata
      unfold trackUpdate
      rw [reqP_neg _ hA, bindE_error]
    · intro productIds productAmounts productNames productUnits productUnitAmounts
      unfold productsUpdate
      rw [reqP_neg _ hA, bindE_error]
    · intro srcId productId productAmount
      unfold trackProduct
      rw [reqP_neg _ hA, bindE_error]
  · intro s' hrm
    unfold removeAudit at hrm
    obtain ⟨u, hq, hok⟩ := bindE_eq_ok hrm
    cases hok
    have hA0 : ((s.setTracker trackerId (fun d => { d with auditor := 0 })).trackerData
        trackerId).auditor = 0 := by
      rw [setTracker_trackerData, if_pos rfl]
    refine ⟨hA0, ?_, ?_, ?_⟩
    · intro tokenIds tokenAmounts fromDate thruDate description metadata hE hi ha hlen hpre
      obtain ⟨hl, hn, hnt, hnp, hm, hpd, hpb, how, hao, hap, htrk, haud, htot⟩ :=
        trackUpdatePrelude_fields now fromDate thruDate description metadata trackerId
          (s.setTracker trackerId (fun d => { d with auditor := 0 }))
      unfold trackUpdate
      rw [reqP_pos _ hA0, bindE_ok, reqP_pos _ hE, bindE_ok]
      unfold trackTokens
      rw [reqP_pos _ (by rw [htrk]; exact hi), bindE_ok,
        reqP_pos _ (by rw [htrk, isAuditorFor_of_eq hn hao hap]; exact ha), bindE_ok,
        reqP_pos _ hlen, bindE_ok]
      apply tokensPre_loop_ok
      rw [hn, hl, hm]
      exact hpre
    · intro productIds productAmounts productNames productUnits productUnitAmounts
        hE ha hl1 hl2 hl3 hl4 hpre
      unfold productsUpdate
      rw [reqP_pos _ hA0, bindE_ok, reqP_pos _ hE, bindE_ok, reqP_pos _ ha, bindE_ok,
        reqP_pos _ hl1, bindE_ok, reqP_pos _ hl2, bindE_ok, reqP_pos _ hl3, bindE_ok,
        reqP_pos _ hl4, bindE_ok]
      exact productsPre_loop_ok _ _ hpre
    · intro srcId productId productAmount hE hao hne hbal hov hpos hidx
      unfold trackProduct
      rw [reqP_pos _ hA0, bindE_ok, reqP_pos _ hE, bindE_ok]
      obtain ⟨tm', htm⟩ := updateTrackedProducts_ok hov hpos hidx
      rcases hao with hia | hown
      · rw [if_pos hia, bindE_ok, reqP_pos _ hne, bindE_ok, reqP_pos _ hbal, bindE_ok,
          safeSub_pos (Nat.le_of_lt hbal), bindE_ok]
        exact ⟨_, updateTrackedProductsS_ok htm⟩
      · by_cases hia2 : isAuditorFor env
            (s.setTracker trackerId (fun d => { d with auditor := 0 })) sender sender = true
        · rw [if_pos hia2, bindE_ok, reqP_pos _ hne, bindE_ok, reqP_pos _ hbal, bindE_ok,
            safeSub_pos (Nat.le_of_lt hbal), bindE_ok]
          exact ⟨_, updateTrackedProductsS_ok htm⟩
        · rw [if_neg hia2, ownerOf_some hown, bindE_ok,
            reqP_pos _ (show sender = sender from rfl), bindE_ok, reqP_pos _ hne, bindE_ok,
            reqP_pos _ hbal, bindE_ok, safeSub_pos (Nat.le_of_lt hbal), bindE_ok]
          exact ⟨_, updateTrackedProductsS_ok htm⟩

/-- C2 witness: on the concrete audited tracker 1 all three operations fail
with `AlreadyAudited`; after `removeAudit` clears the auditor, `trackUpdate`
and `productsUpdate` succeed again for auditor 10, and on the
audited-then-unaudited tracker 2 its owner (20) can `trackProduct` again. -/
theorem C2_audit_blocks_mutations_witness :
    trackUpdate envW 0 10 1 [] [] 0 0 "" "" auditedState = .error .AlreadyAudited ∧
    productsUpdate envW 10 1 [] [] [] [] [] auditedState = .error .AlreadyAudited ∧
    trackProduct envW 10 1 2 1 5 auditedState = .error .AlreadyAudited ∧
    (rmState.trackerData 1).auditor = 0 ∧
    (trackUpdate envW 0 10 1 [] [] 0 0 "" "" rmState).map (fun _ => true) = .ok true ∧
    (productsUpdate envW 10 1 [0] [5] [""] [""] [""] rmState).map (fun _ => true) = .ok true ∧
    (trackProduct envW 20 2 1 1 5 c2Rm).map (fun _ => true) = .ok true := by
  have hthm := C2_audit_blocks_mutations envW 0 10 10 1 auditedState
  have h1 := hthm.1 (by decide)
  have h2 := hthm.2 rmState rfl
  have h3 := (C2_audit_blocks_mutations envW 0 20 10 2 c2State).2 c2Rm rfl
  refine ⟨h1.1 [] [] 0 0 "" "", h1.2.1 [] [] [] [] [], h1.2.2 2 1 5, h2.1, ?_, ?_, ?_⟩
  · obtain ⟨s'', h⟩ := h2.2.1 [] [] 0 0 "" "" (by decide) rfl rfl rfl trivial
    rw [h]
    rfl
  · obtain ⟨s'', h⟩ := h2.2.2.1 [0] [5] [""] [""] [""] (by decide) rfl rfl rfl rfl rfl (by
      show productsPre 10 1 (zip5 [0] [5] [""] [""] [""]) rmState.productData
        ((rmState.trackerData 1).totalProductAmounts) rmState.numProducts
      unfold zip5 productsPre
      rw [if_neg (by decide)]
      exact ⟨by decide, trivial⟩)
    rw [h]
    rfl
  · obtain ⟨s'', h⟩ := h3.2.2.2 1 1 5 (by decide) (Or.inr rfl) (by decide) (by decide)
      (by decide) (by decide) (by decide)
    rw [h]
    rfl

/-! ### Claim C7 -/

/-- C7: `trackProduct` succeeds exactly under its five preconditions — the
tracker is Unaudited, it exists (per the code's own `>=` check), the caller is
an authorized auditor or the tracker owner, the product does not belong to the
target tracker itself, and the caller's balance strictly exceeds the amount —
and otherwise fails with no state change; on success the caller's balance is
debited and the lineage record of `(sourceTrackerId, productId)` credited by
the amount; when only the self-reference check fails the error is exactly
`SelfReferenceNotAllowed`. -/
theorem C7_trackProduct_conditions (env : Env) (sender : Address)
    (trackerId sourceTrackerId productId productAmount : Nat) (s : State) :
    (∀ s', trackProduct env sender trackerId sourceTrackerId productId productAmount s
        = .ok s' →
      (s.trackerData trackerId).auditor = 0 ∧
      trackerId ≤ s.numTrackers ∧
      (isAuditorFor env s sender sender = true ∨ s.owner trackerId = some sender) ∧
      trackerId ≠ (s.productData productId).trackerId ∧
      productAmount < s.productBalance productId sender ∧
      s'.productBalance productId sender
        = s.productBalance productId sender - productAmount ∧
      ((s'.trackerMappings trackerId).productsTracked sourceTrackerId).amount productId
        = ((s.trackerMappings trackerId).productsTracked sourceTrackerId).amount productId
          + productAmount) ∧
    (¬ ((s.trackerData trackerId).auditor = 0 ∧ trackerId ≤ s.numTrackers ∧
        (isAuditorFor env s sender sender = true ∨ s.owner trackerId = some sender) ∧
        trackerId ≠ (s.productData productId).trackerId ∧
        productAmount < s.productBalance productId sender) →
      ∀ s', trackProduct env sender trackerId sourceTrackerId productId productAmount s
        ≠ .ok s') ∧
    ((s.trackerData trackerId).auditor = 0 → trackerId ≤ s.numTrackers →
      (isAuditorFor env s sender sender = true ∨ s.owner trackerId = some sender) →
      trackerId = (s.productData productId).trackerId →
      trackProduct env sender trackerId sourceTrackerId productId productAmount s =
        .error .SelfReferenceNotAllowed) := by
  have main : ∀ s', trackProduct env sender trackerId sourceTrackerId productId productAmount s
      = .ok s' →
      (s.trackerData trackerId).auditor = 0 ∧
      trackerId ≤ s.numTrackers ∧
      (isAuditorFor env s sender sender = true ∨ s.owner trackerId = some sender) ∧
      trackerId ≠ (s.productData productId).trackerId ∧
      productAmount < s.productBalance productId sender ∧
      s'.productBalance productId sender
        = s.productBalance productId sender - productAmount ∧
      ((s'.trackerMappings trackerId).productsTracked sourceTrackerId).amount productId
        = ((s.trackerMappings trackerId).productsTracked sourceTrackerId).amount productId
          + productAmount := by
    intro s' hok
    unfold trackProduct at hok
    obtain ⟨u1, h1, hok⟩ := bindE_eq_ok hok
    obtain ⟨u2, h2, hok⟩ := bindE_eq_ok hok
    obtain ⟨u3, h3, hok⟩ := bindE_eq_ok hok
    obtain ⟨u4, h4, hok⟩ := bindE_eq_ok hok
    obtain ⟨u5, h5, hok⟩ := bindE_eq_ok hok
    obtain ⟨b, hb, hok⟩ := bindE_eq_ok hok
    obtain ⟨hbv, hble⟩ := safeSub_elim hb
    subst hbv
    have P3 : isAuditorFor env s sender sender = true ∨ s.owner trackerId = some sender := by
      by_cases hia : isAuditorFor env s sender sender = true
      · exact Or.inl hia
      · rw [if_neg hia] at h3
        obtain ⟨o, ho, hreq⟩ := bindE_eq_ok h3
        have heq := reqP_elim hreq
        subst heq
        exact Or.inr (ownerOf_elim ho)
    obtain ⟨tm', htm, hs'⟩ := updateTrackedProductsS_elim hok
    subst hs'
    refine ⟨reqP_elim h1, reqP_elim h2, P3, reqP_elim h4, reqP_elim h5, ?_, ?_⟩
    · show upd2 s.productBalance productId sender
        (s.productBalance productId sender - productAmount) productId sender = _
      exact upd2_same _ _ _ _
    · show ((upd s.trackerMappings trackerId tm' trackerId).productsTracked
        sourceTrackerId).amount productId = _
      rw [upd_same]
      exact updateTrackedProducts_amount htm
  refine ⟨main, ?_, ?_⟩
  · intro hnot s' hok
    obtain ⟨p1, p2, p3, p4, p5, _, _⟩ := main s' hok
    exact hnot ⟨p1, p2, p3, p4, p5⟩
  · intro hA hE hP3 heq
    unfold trackProduct
    rw [reqP_pos _ hA, bindE_ok, reqP_pos _ hE, bindE_ok]
    rcases hP3 with hia | hown
    · rw [if_pos hia, bindE_ok, reqP_neg _ (fun hcon => hcon heq), bindE_error]
    · by_cases hia2 : isAuditorFor env s sender sender = true
      · rw [if_pos hia2, bindE_ok, reqP_neg _ (fun hcon => hcon heq), bindE_error]
      · rw [if_neg hia2, ownerOf_some hown, bindE_ok,
          reqP_pos _ (show sender = sender from rfl), bindE_ok,
          reqP_neg _ (fun hcon => hcon heq), bindE_error]

/-- C7 witness: on `transferState`, owner 20 of (unaudited, existing) tracker 2
successfully tracks 10 units of product 1 — the balance drops from 40 to 30
and the lineage amount rises by 10 — and a self-referencing call on the
unaudited tracker 1 fails with exactly `SelfReferenceNotAllowed`. -/
theorem C7_trackProduct_conditions_witness :
    ((transferState.trackerData 2).auditor = 0 ∧
      2 ≤ transferState.numTrackers ∧
      (isAuditorFor envW transferState 20 20 = true ∨ transferState.owner 2 = some 20) ∧
      (2 : Nat) ≠ (transferState.productData 1).trackerId ∧
      10 < transferState.productBalance 1 20 ∧
      (okD (trackProduct envW 20 2 1 1 10 transferState) (State.init 0)).productBalance 1 20
        = transferState.productBalance 1 20 - 10 ∧
      (((okD (trackProduct envW 20 2 1 1 10 transferState) (State.init 0)).trackerMappings 2).productsTracked
        1).amount 1
        = ((transferState.trackerMappings 2).productsTracked 1).amount 1 + 10) ∧
    trackProduct envW 10 1 3 1 0 c6State = .error .SelfReferenceNotAllowed :=
  ⟨(C7_trackProduct_conditions envW 20 2 1 1 10 transferState).1 _ rfl,
   (C7_trackProduct_conditions envW 10 1 3 1 0 c6State).2.2 rfl (by decide) (Or.inl rfl) rfl⟩

/-- C3 witness for the amended claim: the duplicate-pair call adds the total
submitted amount (2) to `lockedAmount[1]`, and a single-pair call requesting
2000 of token 3 (1000 available, 0 locked) fails with `InsufficientAvailable`. -/
theorem C3_lockedAmount_accounting_witness :
    (okD c3DupRun (State.init 0)).lockedAmount 1 =
      c3PreState.lockedAmount 1 + submittedAmount 1 (([1, 1] : List Nat).zip [1, 1]) ∧
    trackUpdate envW 0 10 1 [3] [2000] 0 0 "" "" c3PreState = .error .InsufficientAvailable :=
  ⟨(C3_lockedAmount_accounting envW 0 10 1 [1, 1] [1, 1] 0 0 "" "" c3PreState).1 _ rfl 1,
   (C3_lockedAmount_accounting envW 0 10 1 [3] [2000] 0 0 "" "" c3PreState).2.2
      rfl (by decide) rfl rfl (by decide) 3 2000 rfl rfl (by decide) (by decide)⟩

/-- C1 (code bug): after creating product 1 with amount 50 and then updating
it to amount 30, the tracker's `totalProductAmounts` is still 50 while the sum
of `amount` over the tracker's products is 30 — the update branch of
`productsUpdate` subtracts the incoming `productAmounts[i]` (a no-op against
the later add) instead of the product's old amount, so the claimed invariant
`totalProductAmounts = Σ product amounts` is violated by the code. -/
theorem C1_totalProductAmounts_stale :
    c1Run.map (fun s => ((s.trackerData 1).totalProductAmounts,
        ((s.trackerMappings 1).productIds.map (fun p => (s.productData p).amount)).sum)) =
      .ok (50, 30) ∧ (50 : Nat) ≠ 30 :=
  ⟨rfl, by decide⟩

/-- C4 (code bug): tracking the claimed token pairs `[(1,100,type4),(2,30,type2)]`
onto a fresh tracker REVERTS with an arithmetic underflow — `_addTokenAmounts`
subtracts a type-2 amount from the (zero) per-token amount of that token, not
from the tracker's total — so the state in which `getTotalEmissions` could
return 70 is unreachable; tracking only the type-4 token yields 100, not 70. -/
theorem C4_type2_subtraction_reverts :
    c4Run = .error .Underflow ∧
    envW.tokenTypeId 1 = 4 ∧ envW.tokenTypeId 2 = 2 ∧
    c4RunDirect = .ok 100 ∧ (100 : Nat) ≠ 70 :=
  ⟨rfl, rfl, rfl, rfl, by decide⟩

/-- C9: `emissionsFactor` equals total emissions times the fixed-point scale
1 000 000 divided by `totalProductAmounts` whenever the latter is positive, and
is 0 when `totalProductAmounts = 0`, regardless of the tracker's emissions
(at every recursion depth). -/
theorem C9_emissionsFactor_spec (env : Env) (s : State) (fuel trackerId : Nat) :
    (0 < (s.trackerData trackerId).totalProductAmounts →
      emissionsFactorF env s fuel trackerId =
        getTotalEmissionsF env s fuel trackerId * 1000000 /
          (s.trackerData trackerId).totalProductAmounts) ∧
    ((s.trackerData trackerId).totalProductAmounts = 0 →
      emissionsFactorF env s fuel trackerId = 0) := by
  constructor
  · intro h
    simp [emissionsFactorF, h]
  · intro h
    simp [emissionsFactorF, h]

/-- C9 witness: a tracker with positive emissions (100) and zero
`totalProductAmounts` has emissions factor 0. -/
theorem C9_emissionsFactor_spec_witness :
    getTotalEmissionsF envW c9State 5 1 = 100 ∧
    (c9State.trackerData 1).totalProductAmounts = 0 ∧
    emissionsFactorF envW c9State 5 1 = 0 :=
  ⟨rfl, rfl, (C9_emissionsFactor_spec envW c9State 5 1).2 rfl⟩

/-- Tail of `transferProduct` (debit of the residual amount from the caller's
balance, then credit of the full amount to the trackee), proved over an
arbitrary intermediate state `sP` so that every branch analysis of the main
transfer theorem can reuse it. -/
theorem transferTail (productId productAmount residual : Nat)
    (sender trackee : Address) (sP : State)
    (hres : residual ≤ sP.productBalance productId sender)
    (hD : (if trackee = sender then sP.productBalance productId sender - residual
      else sP.productBalance productId trackee) + productAmount < UINT_MAX) :
    ∃ s'', (bindE
      (if 0 < residual then
        bindE (safeSub (sP.productBalance productId sender) residual) fun b =>
        .ok { sP with productBalance := upd2 sP.productBalance productId sender b }
      else .ok sP) fun s2 =>
      bindE (safeAdd (s2.productBalance productId trackee) productAmount) fun b =>
      .ok { s2 with productBalance := upd2 s2.productBalance productId trackee b }) =
        .ok s'' ∧
      s''.productBalance productId trackee =
        (if trackee = sender then sP.productBalance productId sender - residual
          else sP.productBalance productId trackee) + productAmount ∧
      (trackee ≠ sender → s''.productBalance productId sender =
        sP.productBalance productId sender - residual) ∧
      s''.productData = sP.productData := by
  by_cases hr : 0 < residual
  · rw [if_pos hr, safeSub_pos hres]
    simp only [bindE_ok]
    have e2 : (upd2 sP.productBalance productId sender
        (sP.productBalance productId sender - residual)) productId trackee
        = (if trackee = sender then sP.productBalance productId sender - residual
          else sP.productBalance productId trackee) := by
      by_cases htr : trackee = sender
      · subst htr
        rw [if_pos rfl]
        exact upd2_same _ _ _ _
      · rw [if_neg htr]
        exact upd2_other _ _ (show ¬ (productId = productId ∧ trackee = sender) from
          fun hc => htr hc.2)
    rw [e2, safeAdd_pos hD]
    simp only [bindE_ok]
    refine ⟨_, rfl, ?_, ?_, ?_⟩
    · exact upd2_same _ _ _ _
    · intro htr
      show upd2 (upd2 sP.productBalance productId sender
          (sP.productBalance productId sender - residual)) productId trackee
          ((if trackee = sender then sP.productBalance productId sender - residual
            else sP.productBalance productId trackee) + productAmount)
          productId sender = sP.productBalance productId sender - residual
      rw [upd2_other _ _ (show ¬ (productId = productId ∧ sender = trackee) from
        fun hc => htr hc.2.symm)]
      exact upd2_same _ _ _ _
    · rfl
  · rw [if_neg hr]
    simp only [bindE_ok]
    have hD' : sP.productBalance productId trackee + productAmount < UINT_MAX := by
      by_cases htr : trackee = sender
      · subst htr
        rw [if_pos rfl] at hD
        omega
      · rwa [if_neg htr] at hD
    rw [safeAdd_pos hD']
    simp only [bindE_ok]
    refine ⟨_, rfl, ?_, ?_, rfl⟩
    · by_cases htr : trackee = sender
      · subst htr
        rw [if_pos rfl]
        show upd2 sP.productBalance productId trackee
            (sP.productBalance productId trackee + productAmount) productId trackee =
          sP.productBalance productId trackee - residual + productAmount
        rw [upd2_same]
        omega
      · rw [if_neg htr]
        exact upd2_same _ _ _ _
    · intro htr
      show upd2 sP.productBalance productId trackee
          (sP.productBalance productId trackee + productAmount) productId sender =
        sP.productBalance productId sender - residual
      rw [upd2_other _ _ (show ¬ (productId = productId ∧ sender = trackee) from
        fun hc => htr hc.2.symm)]
      omega

/-- C6 counterexample to the original claim: on an UNAUDITED tracker whose
owner calls `transferProduct`, the claim's effective `available` is 0 and its
failure condition `available + callerBalance <= amount` holds (0 + 0 <= 10),
so the claim says the call fails with `InsufficientProductBalance` — but the
code reverts with `NotAudited` before ever reaching the balance check. -/
theorem C6_owner_unaudited_counterexample :
    c6State.owner (c6State.productData 1).trackerId = some 7 ∧
    (c6State.trackerData (c6State.productData 1).trackerId).auditor = 0 ∧
    c6State.productBalance 1 7 + 0 ≤ 10 ∧
    transferProduct 7 1 10 8 c6State = .error .NotAudited ∧
    Err.NotAudited ≠ Err.InsufficientProductBalance :=
  ⟨rfl, rfl, by decide, rfl, by decide⟩

/-- C6 (amended): let `o` be the owner of the product's tracker token.  If the
caller is `o` and the tracker is unaudited, the call reverts with `NotAudited`
(not `InsufficientProductBalance`).  Otherwise let `availEff` be the product's
available pool when the caller is `o` (tracker then necessarily audited) and 0
when not; provided the caller's balance plus `availEff` does not overflow, the
call fails with `InsufficientProductBalance` exactly when
`callerBalance + availEff <= amount`; on success (no overflow of the
destination credit) the amount is drawn first from `product.available`, the
residual `amount - availEff` from the caller's balance, and the destination
balance is credited with the full amount. -/
theorem C6_transferProduct_spec (sender trackee : Address)
    (productId productAmount : Nat) (s : State) (o : Address)
    (ho : s.owner (s.productData productId).trackerId = some o) :
    (sender = o → (s.trackerData (s.productData productId).trackerId).auditor = 0 →
      transferProduct sender productId productAmount trackee s = .error .NotAudited) ∧
    ∀ availEff,
      availEff = (if sender = o ∧
          (s.trackerData (s.productData productId).trackerId).auditor ≠ 0 then
        (s.productData productId).available else 0) →
      (sender = o → (s.trackerData (s.productData productId).trackerId).auditor ≠ 0) →
      s.productBalance productId sender + availEff < UINT_MAX →
      ((s.productBalance productId sender + availEff ≤ productAmount →
        transferProduct sender productId productAmount trackee s =
          .error .InsufficientProductBalance) ∧
       (productAmount < s.productBalance productId sender + availEff →
        (if trackee = sender
          then s.productBalance productId sender - (productAmount - availEff)
          else s.productBalance productId trackee) + productAmount < UINT_MAX →
        ∃ s', transferProduct sender productId productAmount trackee s = .ok s' ∧
          s'.productBalance productId trackee =
            (if trackee = sender
              then s.productBalance productId sender - (productAmount - availEff)
              else s.productBalance productId trackee) + productAmount ∧
          (trackee ≠ sender → s'.productBalance productId sender =
            s.productBalance productId sender - (productAmount - availEff)) ∧
          (s'.productData productId).available =
            (if 0 < availEff then (s.productData productId).available - productAmount
              else (s.productData productId).available))) := by
  constructor
  · intro hso hA0
    unfold transferProduct
    rw [ownerOf_some ho]
    simp only [bindE_ok]
    rw [if_pos hso, reqP_neg _ (fun hcon => hcon hA0), bindE_error, bindE_error]
  · intro availEff hAE himp hb
    constructor
    · intro hle
      unfold transferProduct
      rw [ownerOf_some ho]
      simp only [bindE_ok]
      by_cases hso : sender = o
      · have hA := himp hso
        have hAE' : availEff = (s.productData productId).available := by
          rw [hAE, if_pos ⟨hso, hA⟩]
        subst hAE'
        rw [if_pos hso, reqP_pos _ hA]
        simp only [bindE_ok]
        rw [safeAdd_pos hb]
        simp only [bindE_ok]
        rw [reqP_neg _ (show ¬ (productAmount < s.productBalance productId sender +
            (s.productData productId).available) from by omega), bindE_error]
      · have hAE' : availEff = 0 := by
          rw [hAE, if_neg (fun hc => hso hc.1)]
        subst hAE'
        rw [if_neg hso]
        simp only [bindE_ok]
        rw [safeAdd_pos hb]
        simp only [bindE_ok]
        rw [reqP_neg _ (show ¬ (productAmount < s.productBalance productId sender + 0)
            from by omega), bindE_error]
    · intro hlt hD
      unfold transferProduct
      rw [ownerOf_some ho]
      simp only [bindE_ok]
      by_cases hso : sender = o
      · have hA := himp hso
        have hAE' : availEff = (s.productData productId).available := by
          rw [hAE, if_pos ⟨hso, hA⟩]
        subst hAE'
        rw [if_pos hso, reqP_pos _ hA]
        simp only [bindE_ok]
        rw [safeAdd_pos hb]
        simp only [bindE_ok]
        rw [reqP_pos _ hlt]
        simp only [bindE_ok]
        by_cases hApos : 0 < (s.productData productId).available
        · by_cases hlt2 : (s.productData productId).available < productAmount
          · rw [if_pos hApos, if_pos hlt2]
            simp only [bindE_ok]
            obtain ⟨s', hrun, e1, e2, e3⟩ := transferTail productId productAmount
              (productAmount - (s.productData productId).available) sender trackee
              (s.setProduct productId (fun p => { p with available := 0 }))
              (show productAmount - (s.productData productId).available ≤
                s.productBalance productId sender from by omega)
              hD
            refine ⟨s', hrun, ?_, ?_, ?_⟩
            · exact e1
            · exact e2
            · rw [if_pos hApos]
              have e3' : s'.productData =
                  upd s.productData productId
                    { s.productData productId with available := 0 } := e3
              rw [e3', upd_same]
              show (0 : Nat) = (s.productData productId).available - productAmount
              omega
          · rw [if_pos hApos, if_neg hlt2,
              safeSub_pos (show productAmount ≤ (s.productData productId).available
                from by omega)]
            simp only [bindE_ok]
            have hD0 : (if trackee = sender then s.productBalance productId sender - 0
                else s.productBalance productId trackee) + productAmount < UINT_MAX := by
              by_cases htr : trackee = sender
              · rw [if_pos htr]
                rw [if_pos htr] at hD
                omega
              · rw [if_neg htr]
                rwa [if_neg htr] at hD
            obtain ⟨s', hrun, e1, e2, e3⟩ := transferTail productId productAmount 0
              sender trackee
              (s.setProduct productId (fun p =>
                { p with available := (s.productData productId).available - productAmount }))
              (Nat.zero_le _) hD0
            have e1' : s'.productBalance productId trackee =
                (if trackee = sender then s.productBalance productId sender - 0
                  else s.productBalance productId trackee) + productAmount := e1
            have e2' : trackee ≠ sender → s'.productBalance productId sender =
                s.productBalance productId sender - 0 := e2
            refine ⟨s', hrun, ?_, ?_, ?_⟩
            · by_cases htr : trackee = sender
              · rw [if_pos htr]
                rw [if_pos htr] at e1'
                omega
              · rw [if_neg htr]
                rw [if_neg htr] at e1'
                omega
            · intro htr
              have := e2' htr
              omega
            · rw [if_pos hApos]
              have e3' : s'.productData =
                  upd s.productData productId
                    { s.productData productId with
                      available := (s.productData productId).available - productAmount } :=
                e3
              rw [e3', upd_same]
        · rw [if_neg hApos]
          simp only [bindE_ok]
          have hD0 : (if trackee = sender then
              s.productBalance productId sender - productAmount
              else s.productBalance productId trackee) + productAmount < UINT_MAX := by
            by_cases htr : trackee = sender
            · rw [if_pos htr]
              rw [if_pos htr] at hD
              omega
            · rw [if_neg htr]
              rwa [if_neg htr] at hD
          obtain ⟨s', hrun, e1, e2, e3⟩ := transferTail productId productAmount
            productAmount sender trackee s (by omega) hD0
          refine ⟨s', hrun, ?_, ?_, ?_⟩
          · by_cases htr : trackee = sender
            · rw [if_pos htr]
              rw [if_pos htr] at e1
              omega
            · rw [if_neg htr]
              rw [if_neg htr] at e1
              omega
          · intro htr
            have := e2 htr
            omega
          · rw [if_neg hApos, e3]
      · have hAE' : availEff = 0 := by
          rw [hAE, if_neg (fun hc => hso hc.1)]
        subst hAE'
        rw [if_neg hso]
        simp only [bindE_ok]
        rw [safeAdd_pos hb]
        simp only [bindE_ok]
        rw [reqP_pos _ hlt]
        simp only [bindE_ok]
        rw [if_neg (show ¬ (0 : Nat) < 0 from by omega)]
        simp only [bindE_ok]
        obtain ⟨s', hrun, e1, e2, e3⟩ := transferTail productId productAmount
          productAmount sender trackee s (by omega) hD
        refine ⟨s', hrun, e1, e2, ?_⟩
        rw [if_neg (show ¬ (0 : Nat) < 0 from by omega), e3]

/-- C6 witness: on the audited state (`auditedState`: tracker 1 owned by 7,
audited, product 1 with `amount = available = 100`, all balances 0):
owner 7 on the UNAUDITED `c6State` reverts with `NotAudited`; transferring
200 fails with `InsufficientProductBalance` (0 + 100 <= 200); transferring 40
to 20 succeeds, leaving `available = 60`, caller balance 0 and destination
balance 40. -/
theorem C6_transferProduct_spec_witness :
    transferProduct 7 1 10 8 c6State = .error .NotAudited ∧
    transferProduct 7 1 200 8 auditedState = .error .InsufficientProductBalance ∧
    (∃ s', transferProduct 7 1 40 20 auditedState = .ok s' ∧
      s'.productBalance 1 20 =
        (if (20 : Nat) = 7
          then auditedState.productBalance 1 7 - (40 - 100)
          else auditedState.productBalance 1 20) + 40 ∧
      ((20 : Nat) ≠ 7 → s'.productBalance 1 7 =
        auditedState.productBalance 1 7 - (40 - 100)) ∧
      (s'.productData 1).available =
        (if (0 : Nat) < 100 then (auditedState.productData 1).available - 40
          else (auditedState.productData 1).available)) :=
  ⟨(C6_transferProduct_spec 7 8 1 10 c6State 7 rfl).1 rfl rfl,
   ((C6_transferProduct_spec 7 8 1 200 auditedState 7 rfl).2 100 rfl
      (fun _ => by decide) (by decide)).1 (by decide),
   ((C6_transferProduct_spec 7 20 1 40 auditedState 7 rfl).2 100 rfl
      (fun _ => by decide) (by decide)).2 (by decide) (by decide)⟩

/-! ### Claim C5: invariants of the two-level indexed lineage sets -/

theorem PTInv_empty : PTInv ProductsTracked.empty := by
  refine ⟨?_, ?_, ?_, ?_, ?_⟩
  · intro p hp
    exact absurd hp (List.not_mem_nil p)
  · intro p hne
    exact absurd rfl hne
  · exact List.nodup_nil
  · intro p hne
    exact absurd rfl hne
  · intro p hpos
    have h0 : (0 : Nat) < 0 := hpos
    omega

theorem TMInv_empty : TMInv TrackerMappings.empty := by
  refine ⟨?_, ?_, ?_, ?_, ?_, ?_⟩
  · intro x hx
    exact absurd hx (List.not_mem_nil x)
  · intro x hxne
    exact absurd rfl hxne
  · exact List.nodup_nil
  · intro x hxne
    exact absurd rfl hxne
  · intro x hxne
    exact absurd rfl hxne
  · intro x
    exact PTInv_empty

/-- Inserting a fresh product (positive amount, index previously 0) keeps the
product-level invariant. -/
theorem PTInv_insert {pt : ProductsTracked} (hInv : PTInv pt) {pid a : Nat}
    (ha : 0 < a) (hidx : pt.productIndex pid = 0) :
    PTInv { pt with
      amount := upd pt.amount pid a,
      productIds := pt.productIds ++ [pid],
      productIndex := upd pt.productIndex pid (pt.productIds.length + 1) } := by
  have hnotmem : pid ∉ pt.productIds := fun hmem => hInv.idxPos pid hmem hidx
  refine ⟨?_, ?_, ?_, ?_, ?_⟩
  · intro p hp
    show upd pt.productIndex pid (pt.productIds.length + 1) p ≠ 0
    rcases List.mem_append.mp hp with hp1 | hp1
    · have hne : p ≠ pid := fun he => hnotmem (he ▸ hp1)
      rw [upd_other _ _ hne]
      exact hInv.idxPos p hp1
    · have he : p = pid := by simpa using hp1
      subst he
      rw [upd_same]
      omega
  · intro p hne
    have hne' : upd pt.productIndex pid (pt.productIds.length + 1) p ≠ 0 := hne
    show (pt.productIds ++
        [pid])[upd pt.productIndex pid (pt.productIds.length + 1) p - 1]? = some p
    by_cases hpp : p = pid
    · subst hpp
      rw [upd_same, Nat.add_sub_cancel]
      exact List.getElem?_concat_length _ _
    · rw [upd_other _ _ hpp] at hne' ⊢
      have hs := hInv.idxSound p hne'
      have hlt : pt.productIndex p - 1 < pt.productIds.length := by
        by_contra hge
        rw [List.getElem?_eq_none (Nat.le_of_not_lt hge)] at hs
        cases hs
      rw [List.getElem?_append_left hlt]
      exact hs
  · show (pt.productIds ++ [pid]).Nodup
    rw [List.nodup_append]
    refine ⟨hInv.nodup, List.nodup_singleton _, ?_⟩
    intro x hx hx2
    have he : x = pid := by simpa using hx2
    subst he
    exact hnotmem hx
  · intro p hne
    have hne' : upd pt.productIndex pid (pt.productIds.length + 1) p ≠ 0 := hne
    show 0 < upd pt.amount pid a p
    by_cases hpp : p = pid
    · subst hpp
      rw [upd_same]
      exact ha
    · rw [upd_other _ _ hpp] at hne'
      rw [upd_other _ _ hpp]
      exact hInv.amtPos p hne'
  · intro p hpos
    have hpos' : 0 < upd pt.amount pid a p := hpos
    show upd pt.productIndex pid (pt.productIds.length + 1) p ≠ 0
    by_cases hpp : p = pid
    · subst hpp
      rw [upd_same]
      omega
    · rw [upd_other _ _ hpp] at hpos'
      rw [upd_other _ _ hpp]
      exact hInv.posIdx p hpos'

/-- Raising the amount of an already-indexed product keeps the product-level
invariant. -/
theorem PTInv_bump {pt : ProductsTracked} (hInv : PTInv pt) {pid a : Nat}
    (ha : 0 < a) (hidx : pt.productIndex pid ≠ 0) :
    PTInv { pt with amount := upd pt.amount pid a } := by
  refine ⟨hInv.idxPos, hInv.idxSound, hInv.nodup, ?_, ?_⟩
  · intro p hne
    show 0 < upd pt.amount pid a p
    by_cases hpp : p = pid
    · subst hpp
      rw [upd_same]
      exact ha
    · rw [upd_other _ _ hpp]
      exact hInv.amtPos p hne
  · intro p hpos
    have hpos' : 0 < upd pt.amount pid a p := hpos
    by_cases hpp : p = pid
    · subst hpp
      exact hidx
    · rw [upd_other _ _ hpp] at hpos'
      exact hInv.posIdx p hpos'

/-- Zeroing the amount of an unindexed product keeps the product-level
invariant. -/
theorem PTInv_zero {pt : ProductsTracked} (hInv : PTInv pt) {pid a : Nat}
    (hidx : pt.productIndex pid = 0) :
    PTInv { pt with amount := upd (upd pt.amount pid a) pid 0 } := by
  refine ⟨hInv.idxPos, hInv.idxSound, hInv.nodup, ?_, ?_⟩
  · intro p hne
    show 0 < upd (upd pt.amount pid a) pid 0 p
    by_cases hpp : p = pid
    · subst hpp
      exact absurd hidx hne
    · rw [upd_other _ _ hpp, upd_other _ _ hpp]
      exact hInv.amtPos p hne
  · intro p hpos
    have hpos' : 0 < upd (upd pt.amount pid a) pid 0 p := hpos
    by_cases hpp : p = pid
    · subst hpp
      rw [upd_same] at hpos'
      omega
    · rw [upd_other _ _ hpp, upd_other _ _ hpp] at hpos'
      exact hInv.posIdx p hpos'

/-- A product set with an empty array (hence, under the invariant, all-zero
indexes and amounts) keeps the product-level invariant after the zeroing
writes of the removal path. -/
theorem PTInv_allZero {pt : ProductsTracked} (hInv : PTInv pt)
    (hids : pt.productIds = []) {pid a : Nat} :
    PTInv { pt with
      productIds := ([] : List Nat),
      amount := upd (upd pt.amount pid a) pid 0 } := by
  have hidx0 : ∀ p, pt.productIndex p = 0 := by
    intro p
    by_contra hne
    have hs := hInv.idxSound p hne
    rw [hids] at hs
    simp at hs
  have hamt0 : ∀ p, pt.amount p = 0 := by
    intro p
    by_contra hne
    exact (hInv.posIdx p (Nat.pos_of_ne_zero hne)) (hidx0 p)
  refine ⟨?_, ?_, ?_, ?_, ?_⟩
  · intro p hp
    exact absurd hp (List.not_mem_nil p)
  · intro p hne
    exact absurd (hidx0 p) hne
  · exact List.nodup_nil
  · intro p hne
    exact absurd (hidx0 p) hne
  · intro p hpos
    have hpos' : 0 < upd (upd pt.amount pid a) pid 0 p := hpos
    by_cases hpp : p = pid
    · subst hpp
      rw [upd_same] at hpos'
      omega
    · rw [upd_other _ _ hpp, upd_other _ _ hpp] at hpos'
      rw [hamt0 p] at hpos'
      omega

/-- Inserting a fresh source tracker (nonempty product set, index previously
0) keeps the two-level invariant. -/
theorem TMInv_insertT {tm : TrackerMappings} (hInv : TMInv tm) {src : Nat}
    {pt' : ProductsTracked} (hPT : PTInv pt') (hne : pt'.productIds ≠ [])
    (htidx : tm.trackerIndex src = 0) :
    TMInv { tm with
      productsTracked := upd tm.productsTracked src pt',
      trackerIds := tm.trackerIds ++ [src],
      trackerIndex := upd tm.trackerIndex src (tm.trackerIds.length + 1) } := by
  have hnotmem : src ∉ tm.trackerIds := fun hm => hInv.tIdxPos src hm htidx
  refine ⟨?_, ?_, ?_, ?_, ?_, ?_⟩
  · intro x hx
    show upd tm.trackerIndex src (tm.trackerIds.length + 1) x ≠ 0
    rcases List.mem_append.mp hx with hx1 | hx1
    · have hne2 : x ≠ src := fun he => hnotmem (he ▸ hx1)
      rw [upd_other _ _ hne2]
      exact hInv.tIdxPos x hx1
    · have he : x = src := by simpa using hx1
      subst he
      rw [upd_same]
      omega
  · intro x hxne
    have hxne' : upd tm.trackerIndex src (tm.trackerIds.length + 1) x ≠ 0 := hxne
    show (tm.trackerIds ++
        [src])[upd tm.trackerIndex src (tm.trackerIds.length + 1) x - 1]? = some x
    by_cases hxs : x = src
    · subst hxs
      rw [upd_same, Nat.add_sub_cancel]
      exact List.getElem?_concat_length _ _
    · rw [upd_other _ _ hxs] at hxne' ⊢
      have hs := hInv.tIdxSound x hxne'
      have hlt : tm.trackerIndex x - 1 < tm.trackerIds.length := by
        by_contra hge
        rw [List.getElem?_eq_none (Nat.le_of_not_lt hge)] at hs
        cases hs
      rw [List.getElem?_append_left hlt]
      exact hs
  · show (tm.trackerIds ++ [src]).Nodup
    rw [List.nodup_append]
    refine ⟨hInv.tNodup, List.nodup_singleton _, ?_⟩
    intro x hx hx2
    have he : x = src := by simpa using hx2
    subst he
    exact hnotmem hx
  · intro x hxne
    have hxne' : upd tm.trackerIndex src (tm.trackerIds.length + 1) x ≠ 0 := hxne
    show (upd tm.productsTracked src pt' x).productIds ≠ []
    by_cases hxs : x = src
    · subst hxs
      rw [upd_same]
      exact hne
    · rw [upd_other _ _ hxs] at hxne'
      rw [upd_other _ _ hxs]
      exact hInv.tNonempty x hxne'
  · intro x hxne
    have hxne' : (upd tm.productsTracked src pt' x).productIds ≠ [] := hxne
    show upd tm.trackerIndex src (tm.trackerIds.length + 1) x ≠ 0
    by_cases hxs : x = src
    · subst hxs
      rw [upd_same]
      omega
    · rw [upd_other _ _ hxs] at hxne'
      rw [upd_other _ _ hxs]
      exact hInv.tIndexed x hxne'
  · intro x
    show PTInv (upd tm.productsTracked src pt' x)
    by_cases hxs : x = src
    · subst hxs
      rw [upd_same]
      exact hPT
    · rw [upd_other _ _ hxs]
      exact hInv.pts x

/-- Replacing the product set of an already-indexed source tracker by a
nonempty set satisfying the product-level invariant keeps the two-level
invariant. -/
theorem TMInv_updT {tm : TrackerMappings} (hInv : TMInv tm) {src : Nat}
    {pt' : ProductsTracked} (hPT : PTInv pt') (hne : pt'.productIds ≠ [])
    (htidx : tm.trackerIndex src ≠ 0) :
    TMInv { tm with productsTracked := upd tm.productsTracked src pt' } := by
  refine ⟨hInv.tIdxPos, hInv.tIdxSound, hInv.tNodup, ?_, ?_, ?_⟩
  · intro x hxne
    show (upd tm.productsTracked src pt' x).productIds ≠ []
    by_cases hxs : x = src
    · subst hxs
      rw [upd_same]
      exact hne
    · rw [upd_other _ _ hxs]
      exact hInv.tNonempty x hxne
  · intro x hxne
    have hxne' : (upd tm.productsTracked src pt' x).productIds ≠ [] := hxne
    by_cases hxs : x = src
    · subst hxs
      exact htidx
    · rw [upd_other _ _ hxs] at hxne'
      exact hInv.tIndexed x hxne'
  · intro x
    show PTInv (upd tm.productsTracked src pt' x)
    by_cases hxs : x = src
    · subst hxs
      rw [upd_same]
      exact hPT
    · rw [upd_other _ _ hxs]
      exact hInv.pts x

/-- Writing an emptied record for an unindexed source tracker keeps the
two-level invariant. -/
theorem TMInv_emptyT {tm : TrackerMappings} (hInv : TMInv tm) {src : Nat}
    {ptF ptE : ProductsTracked} (hPT : PTInv ptE) (hE : ptE.productIds = [])
    (htidx : tm.trackerIndex src = 0) :
    TMInv { tm with
      productsTracked := upd (upd tm.productsTracked src ptF) src ptE } := by
  refine ⟨hInv.tIdxPos, hInv.tIdxSound, hInv.tNodup, ?_, ?_, ?_⟩
  · intro x hxne
    show (upd (upd tm.productsTracked src ptF) src ptE x).productIds ≠ []
    by_cases hxs : x = src
    · subst hxs
      exact absurd htidx hxne
    · rw [upd_other _ _ hxs, upd_other _ _ hxs]
      exact hInv.tNonempty x hxne
  · intro x hxne
    have hxne' : (upd (upd tm.productsTracked src ptF) src ptE x).productIds ≠ [] :=
      hxne
    by_cases hxs : x = src
    · subst hxs
      rw [upd_same] at hxne'
      exact absurd hE hxne'
    · rw [upd_other _ _ hxs, upd_other _ _ hxs] at hxne'
      exact hInv.tIndexed x hxne'
  · intro x
    show PTInv (upd (upd tm.productsTracked src ptF) src ptE x)
    by_cases hxs : x = src
    · subst hxs
      rw [upd_same]
      exact hPT
    · rw [upd_other _ _ hxs, upd_other _ _ hxs]
      exact hInv.pts x

/-- One successful `_updateTrackedProducts` call preserves the two-level
invariant.  Under the invariant the swap-removal code is never executed: the
amounts only ever grow, so a zero post-update amount forces a zero pre-call
amount (hence a zero product index), and an empty product set forces a zero
tracker index. -/
theorem TMInv_step {src pid amt : Nat} {tm tm' : TrackerMappings}
    (hInv : TMInv tm) (h : updateTrackedProducts src pid amt tm = .ok tm') :
    TMInv tm' := by
  unfold updateTrackedProducts at h
  simp only [bindE_ok] at h
  obtain ⟨a, hadd, h⟩ := bindE_eq_ok h
  obtain ⟨hA, hbound⟩ := safeAdd_elim hadd
  subst hA
  obtain ⟨pt2, hpt, h⟩ := bindE_eq_ok h
  by_cases hpos : 0 < (tm.productsTracked src).amount pid + amt
  · rw [if_pos hpos] at hpt
    by_cases hidx : (tm.productsTracked src).productIndex pid = 0
    · rw [if_pos hidx] at hpt
      cases hpt
      have hPT := PTInv_insert (hInv.pts src) hpos hidx
      rw [if_pos (by simp)] at h
      by_cases htidx : tm.trackerIndex src = 0
      · rw [if_pos htidx] at h
        cases h
        exact TMInv_insertT hInv hPT (by simp) htidx
      · rw [if_neg htidx] at h
        cases h
        exact TMInv_updT hInv hPT (by simp) htidx
    · rw [if_neg hidx] at hpt
      cases hpt
      have hPT := PTInv_bump (hInv.pts src) hpos hidx
      have hne0 : (tm.productsTracked src).productIds ≠ [] := by
        intro hnil
        have hs := (hInv.pts src).idxSound pid hidx
        rw [hnil] at hs
        simp at hs
      rw [if_pos (List.length_pos.mpr hne0)] at h
      have htidx := hInv.tIndexed src hne0
      rw [if_neg htidx] at h
      cases h
      exact TMInv_updT hInv hPT hne0 htidx
  · rw [if_neg hpos] at hpt
    have hidx : (tm.productsTracked src).productIndex pid = 0 := by
      by_contra hne
      have := (hInv.pts src).amtPos pid hne
      omega
    rw [if_neg (show ¬ 0 < (tm.productsTracked src).productIndex pid from by
      omega)] at hpt
    simp only [bindE_ok] at hpt
    cases hpt
    by_cases hids : (tm.productsTracked src).productIds = []
    · rw [if_neg (show ¬ 0 < (tm.productsTracked src).productIds.length from by
        rw [hids]; simp)] at h
      have htidx : tm.trackerIndex src = 0 := by
        by_contra hne
        exact (hInv.tNonempty src hne) hids
      rw [if_neg (show ¬ 0 < tm.trackerIndex src from by omega)] at h
      simp only [bindE_ok] at h
      cases h
      exact TMInv_emptyT hInv (PTInv_allZero (hInv.pts src) hids) rfl htidx
    · rw [if_pos (List.length_pos.mpr hids)] at h
      have htidx := hInv.tIndexed src hids
      rw [if_neg htidx] at h
      cases h
      exact TMInv_updT hInv (PTInv_zero (hInv.pts src) hidx) hids htidx

/-- Every lineage record reachable from the empty one by successful
`_updateTrackedProducts` calls satisfies the two-level invariant. -/
theorem TMInv_reach {tm : TrackerMappings} (h : ReachTM tm) : TMInv tm := by
  induction h with
  | base => exact TMInv_empty
  | step src pid amt hr hstep ih => exact TMInv_step ih hstep

/-- C5: after any sequence of `_updateTrackedProducts` calls from the empty
record, both indexed sets are consistent — every present element's stored
1-based index points at its true array position, no element appears twice —
and whenever a call leaves a source tracker's product set empty, that source
tracker is absent from the parent's `trackerIds` set (with index 0) and its
per-source-tracker record is fully zeroed. -/
theorem C5_indexed_sets_invariant (tm : TrackerMappings) (h : ReachTM tm) :
    (∀ x ∈ tm.trackerIds, tm.trackerIndex x ≠ 0 ∧
      tm.trackerIds[tm.trackerIndex x - 1]? = some x) ∧
    tm.trackerIds.Nodup ∧
    (∀ src, (∀ p ∈ (tm.productsTracked src).productIds,
        (tm.productsTracked src).productIndex p ≠ 0 ∧
        (tm.productsTracked
          src).productIds[(tm.productsTracked src).productIndex p - 1]? = some p) ∧
      (tm.productsTracked src).productIds.Nodup) ∧
    (∀ src pid amt tm', updateTrackedProducts src pid amt tm = .ok tm' →
      (tm'.productsTracked src).productIds = [] →
      tm'.trackerIndex src = 0 ∧ src ∉ tm'.trackerIds ∧
      ∀ p, (tm'.productsTracked src).amount p = 0 ∧
        (tm'.productsTracked src).productIndex p = 0) := by
  have hInv := TMInv_reach h
  refine ⟨?_, hInv.tNodup, ?_, ?_⟩
  · intro x hx
    exact ⟨hInv.tIdxPos x hx, hInv.tIdxSound x (hInv.tIdxPos x hx)⟩
  · intro src
    refine ⟨?_, (hInv.pts src).nodup⟩
    intro p hp
    exact ⟨(hInv.pts src).idxPos p hp,
      (hInv.pts src).idxSound p ((hInv.pts src).idxPos p hp)⟩
  · intro src pid amt tm' hstep hempty
    have hInv' : TMInv tm' := TMInv_step hInv hstep
    have hidx0 : ∀ p, (tm'.productsTracked src).productIndex p = 0 := by
      intro p
      by_contra hne
      have hs := (hInv'.pts src).idxSound p hne
      rw [hempty] at hs
      simp at hs
    have htIdx : tm'.trackerIndex src = 0 := by
      by_contra hne
      exact (hInv'.tNonempty src hne) hempty
    refine ⟨htIdx, ?_, ?_⟩
    · intro hmem
      exact (hInv'.tIdxPos src hmem) htIdx
    · intro p
      refine ⟨?_, hidx0 p⟩
      by_contra hne
      exact ((hInv'.pts src).posIdx p (Nat.pos_of_ne_zero hne)) (hidx0 p)

/-- C5 witness: the concrete reachable record `c5Tm` (one insertion of
product 1, amount 5, from source tracker 2) satisfies the full invariant
statement. -/
theorem C5_indexed_sets_invariant_witness :
    ReachTM c5Tm ∧
    ((∀ x ∈ c5Tm.trackerIds, c5Tm.trackerIndex x ≠ 0 ∧
        c5Tm.trackerIds[c5Tm.trackerIndex x - 1]? = some x) ∧
      c5Tm.trackerIds.Nodup ∧
      (∀ src, (∀ p ∈ (c5Tm.productsTracked src).productIds,
          (c5Tm.productsTracked src).productIndex p ≠ 0 ∧
          (c5Tm.productsTracked
            src).productIds[(c5Tm.productsTracked src).productIndex p - 1]? = some p) ∧
        (c5Tm.productsTracked src).productIds.Nodup) ∧
      (∀ src pid amt tm', updateTrackedProducts src pid amt c5Tm = .ok tm' →
        (tm'.productsTracked src).productIds = [] →
        tm'.trackerIndex src = 0 ∧ src ∉ tm'.trackerIds ∧
        ∀ p, (tm'.productsTracked src).amount p = 0 ∧
          (tm'.productsTracked src).productIndex p = 0)) :=
  ⟨ReachTM.step 2 1 5 ReachTM.base rfl,
   C5_indexed_sets_invariant c5Tm (ReachTM.step 2 1 5 ReachTM.base rfl)⟩

end CarbonTracker
